import Mathlib

/-!
Shallow embedding of the profile-processing pipeline of `one_project`
(`src/app/services/profile_processor.py`, `src/app/services/brightdata_service.py`,
`src/app/services/scoring_v1.py`) together with proofs settling the frozen
claims C1..C10 about the natural-language specification.

Conventions:
* Python dict/list/str/int/float/None values are modelled by the inductive
  type `PyVal`; Python `dict` preserves insertion order, modelled by an
  association list.
* Python operations that can raise (`.get` on a non-dict, `.lower()` on a
  non-str, `+`/`>=` on incompatible types, `len()` on a non-sized value,
  iteration over a non-iterable) are modelled in `Except String`; a Python
  `try/except` block is modelled by matching on the `Except` result.  The
  exception *message* strings are abstract placeholders (the source stores
  `str(e)`, whose exact text no claim depends on).
* Machine floats of the source are modelled by `ℚ` (exact rationals) except
  for the logarithmic social-reach score, which is modelled over `ℝ`
  because of `math.log10`.
* The SQLAlchemy profile store is modelled as a `List Profile` in stable
  insertion order.  The unqualified `query(...).order_by(final_score.desc())`
  of `_update_rankings` guarantees only a score-descending order; the order
  of rows with equal scores is unspecified.  It is therefore modelled by the
  predicate `dbOrder` (any score-descending permutation of the completed
  entries); the executable `update_rankings` fixes one admissible tie order
  (store order) solely so that `process_profile` remains a function, and no
  proof relies on that choice beyond its admissibility.
-/

/-- Model of a Python value (dict insertion order kept as list order). -/
inductive PyVal where
  | none
  | bool (b : Bool)
  | int (n : Int)
  | float (q : ℚ)
  | str (s : String)
  | list (xs : List PyVal)
  | dict (kvs : List (String × PyVal))

namespace PyVal

/-- Python truthiness (`bool(v)`). -/
def truthy : PyVal → Bool
  | .none => false
  | .bool b => b
  | .int n => n != 0
  | .float q => q != 0
  | .str s => s != ""
  | .list xs => !xs.isEmpty
  | .dict kvs => !kvs.isEmpty

/-- Python `a or b` (returns `a` when truthy, else `b`). -/
def pyOr (a b : PyVal) : PyVal := if a.truthy then a else b

/-- Association-list lookup for the dict model (first binding wins,
matching Python dict semantics where keys are unique). -/
def lookup : List (String × PyVal) → String → Option PyVal
  | [], _ => Option.none
  | (k, v) :: rest, key => if k = key then Option.some v else lookup rest key

/-- Python `d.get(key, default)`; raises (`AttributeError`) when the
receiver is not a dict. -/
def get (v : PyVal) (key : String) (dflt : PyVal) : Except String PyVal :=
  match v with
  | .dict kvs =>
      match lookup kvs key with
      | Option.some x => .ok x
      | Option.none => .ok dflt
  | _ => .error "AttributeError: get"

/-- Python `d.get(key)` (default `None`). -/
def getN (v : PyVal) (key : String) : Except String PyVal := v.get key .none

/-- Python dict item assignment `d[key] = x` (replaces in place, appends
when absent — insertion-order semantics). -/
def setKey : PyVal → String → PyVal → PyVal
  | .dict kvs, key, x => .dict (go kvs key x)
  | v, _, _ => v
where
  go : List (String × PyVal) → String → PyVal → List (String × PyVal)
    | [], key, x => [(key, x)]
    | (k, v) :: rest, key, x =>
        if k = key then (k, x) :: rest else (k, v) :: go rest key x

/-- Numeric view shared by `int`, `float` and `bool` (Python numeric tower
restricted to what the source can produce). -/
def toNum : PyVal → Option ℚ
  | .bool b => Option.some (if b then 1 else 0)
  | .int n => Option.some (n : ℚ)
  | .float q => Option.some q
  | _ => Option.none

/-- Python `a + b` for the type combinations reachable in the source;
anything else raises `TypeError`. -/
def pyAdd (a b : PyVal) : Except String PyVal :=
  match a.toNum, b.toNum with
  | Option.some x, Option.some y => .ok (.float (x + y))
  | _, _ =>
      match a, b with
      | .str s, .str t => .ok (.str (s ++ t))
      | .list xs, .list ys => .ok (.list (xs ++ ys))
      | _, _ => .error "TypeError: +"

/-- Python `a >= n` against a numeric literal; raises `TypeError` on a
non-numeric left operand. -/
def pyGeNum (a : PyVal) (n : ℚ) : Except String Bool :=
  match a.toNum with
  | Option.some x => .ok (decide (n ≤ x))
  | Option.none => .error "TypeError: >="

/-- Python `len(v)`; raises on unsized values. -/
def pyLen : PyVal → Except String ℕ
  | .str s => .ok s.length
  | .list xs => .ok xs.length
  | .dict kvs => .ok kvs.length
  | _ => .error "TypeError: len"

/-- Python iteration `for x in v`: list elements, string characters
(as one-character strings), dict keys; raises otherwise. -/
def pyIter : PyVal → Except String (List PyVal)
  | .list xs => .ok xs
  | .str s => .ok (s.data.map fun c => .str (String.mk [c]))
  | .dict kvs => .ok (kvs.map fun kv => .str kv.fst)
  | _ => .error "TypeError: not iterable"

end PyVal

/-- ASCII lower-casing of one character (model of what Python's
`str.lower` does on the ASCII inputs occurring in this code base). -/
def lowerChar (c : Char) : Char :=
  if 65 ≤ c.toNat ∧ c.toNat ≤ 90 then Char.ofNat (c.toNat + 32) else c

/-- Model of Python `s.lower()`. -/
def strLower (s : String) : String := ⟨s.data.map lowerChar⟩

/-- Model of Python substring test `needle in hay`. -/
def strContains (hay needle : String) : Bool :=
  decide (List.IsInfix needle.data hay.data)

/-- Model of Python `s.startswith(p)`. -/
def strStartsWith (s p : String) : Bool := p.data.isPrefixOf s.data

/-- Model of Python `s.endswith(p)`. -/
def strEndsWith (s p : String) : Bool :=
  decide (List.IsSuffix p.data s.data)

/-- Model of `len(s.split())` in Python: number of maximal runs of
non-whitespace characters. -/
def wordCount (s : String) : ℕ := go s.data false
where
  go : List Char → Bool → ℕ
    | [], _ => 0
    | c :: rest, inWord =>
        if c.isWhitespace then go rest false
        else (if inWord then 0 else 1) + go rest true

section ScoringV1
/-!  `GPTScoringService` deterministic heuristics
     (`src/app/services/scoring_v1.py`). -/

/-- VP-level keyword list (`scoring_v1.py` lines 38-44). -/
def vp_keywords : List String :=
  ["vp of", "vp ", "vice president", "svp", "senior vice president", "evp",
   "executive vice president", "chief technology officer",
   "chief executive officer", "chief financial officer",
   "chief operating officer", "chief marketing officer", "cto", "ceo", "cfo",
   "coo", "cmo", "head of engineering", "head of product", "head of data",
   "head of ai", "head of ml", "founder", "co-founder", "cofounder"]

/-- Executive-level keyword list (`scoring_v1.py` lines 47-52). -/
def executive_keywords : List String :=
  ["director", "senior director", "managing director", "executive director",
   "principal", "senior principal", "distinguished", "fellow", "architect",
   "lead", "team lead", "tech lead", "engineering manager", "senior manager",
   "group manager", "program manager", "senior program manager"]

/-- Senior-level keyword list (`scoring_v1.py` lines 55-58). -/
def senior_keywords : List String :=
  ["senior", "sr.", "staff", "senior staff", "specialist",
   "senior specialist", "consultant", "senior consultant", "expert",
   "senior expert"]

/-- The raw VP-keyword match test of lines 63-66: exact equality,
space-bounded infix, prefix-plus-space or space-plus-suffix. -/
def vpRawMatch (title_lower keyword : String) : Bool :=
  keyword = title_lower ||
  strContains (" " ++ title_lower ++ " ") (" " ++ keyword ++ " ") ||
  strStartsWith title_lower (keyword ++ " ") ||
  strEndsWith title_lower (" " ++ keyword)

/-- Lines 69-70: skip a bare "president" match without vice/senior context
(dead in practice — "president" alone is not in `vp_keywords` — kept for
fidelity). -/
def presidentSkip (title_lower keyword : String) : Bool :=
  keyword = "president" && !strContains title_lower "vice" &&
  !strContains title_lower "senior"

/-- Lines 73-74: a single-word title only matches single-token C-level or
founder keywords. -/
def singleWordSkip (job_title keyword : String) : Bool :=
  wordCount job_title = 1 &&
  !(["cto", "ceo", "cfo", "coo", "cmo", "founder"].contains keyword)

/-- Whether a VP keyword survives the match and both skip checks. -/
def vpEffectiveMatch (job_title title_lower keyword : String) : Bool :=
  vpRawMatch title_lower keyword && !presidentSkip title_lower keyword &&
  !singleWordSkip job_title keyword

/-- `GPTScoringService.classify_seniority_level`
(`scoring_v1.py` lines 21-92); returns (level name, score 1-10, reason). -/
def classify_seniority_level (job_title : String) (_company : String := "") :
    String × ℕ × String :=
  if job_title = "" then ("Junior", 2, "No job title available")
  else
    let title_lower := strLower job_title
    if vp_keywords.any (vpEffectiveMatch job_title title_lower) then
      let score :=
        if ["cto", "ceo", "founder", "chief"].any
            (fun k => strContains title_lower k) then 10 else 9
      ("VP", score, "VP-level title: " ++ job_title)
    else if executive_keywords.any (fun k => strContains title_lower k) then
      let score :=
        if ["director", "principal", "distinguished"].any
            (fun k => strContains title_lower k) then 8 else 7
      ("Executive", score, "Executive-level title: " ++ job_title)
    else if senior_keywords.any (fun k => strContains title_lower k) then
      let score :=
        if strContains title_lower "staff" then 6
        else if strContains title_lower "senior" then 5 else 4
      ("Senior", score, "Senior-level title: " ++ job_title)
    else ("Junior", 2, "Entry/mid-level title: " ++ job_title)

/-- Tier-A company substrings (`scoring_v1.py` line 736). -/
def tier_a : List String :=
  ["google", "apple", "meta", "facebook", "amazon", "netflix", "microsoft",
   "nvidia", "openai", "anthropic"]

/-- Tier-A- company substrings (line 741). -/
def tier_a_minus : List String :=
  ["uber", "airbnb", "stripe", "spotify", "twitter", "x corp", "tesla",
   "spacex", "palantir"]

/-- Tier-B company substrings (line 746). -/
def tier_b : List String :=
  ["oracle", "salesforce", "adobe", "intel", "ibm", "cisco", "vmware",
   "snowflake", "databricks", "atlassian"]

/-- Tier-C company substrings (line 751). -/
def tier_c : List String :=
  ["startup", "consulting", "accenture", "deloitte", "pwc", "kpmg", "ey"]

/-- The ordered tier-membership cascade of
`GPTScoringService._resolve_company_tier` (lines 733-756), on the already
lower-cased company name. -/
def resolve_company_tier_lower (company_lower : String) : String :=
  if tier_a.any (fun c => strContains company_lower c) then "A"
  else if tier_a_minus.any (fun c => strContains company_lower c) then "A-"
  else if tier_b.any (fun c => strContains company_lower c) then "B"
  else if tier_c.any (fun c => strContains company_lower c) then "C"
  else "D"

/-- `GPTScoringService._resolve_company_tier`
(`scoring_v1.py` lines 728-756). -/
def resolve_company_tier (company_name : String) : String :=
  if company_name = "" ∨ company_name = "N/A" then "D"
  else resolve_company_tier_lower (strLower company_name)

end ScoringV1

section JudgeHeuristic
/-!  `ProfileProcessor._compute_judge_auto_suggestion`
     (`src/app/services/profile_processor.py` lines 244-306).
     The body runs inside `try/except`; the `Except String` computation
     `judgeRun` models the `try` body, and the wrapper
     `compute_judge_auto_suggestion` models the `except` handler. -/

/-- Model of Python `v.lower()`: only defined on strings. -/
def pyLower : PyVal → Except String String
  | .str s => .ok (strLower s)
  | _ => .error "AttributeError: lower"

open PyVal in
/-- Python string/value equality `s == t` restricted to a string left
operand (Python `==` across types is `False`, never an error). -/
def PyVal.eqStr : PyVal → String → Bool
  | .str s, t => s = t
  | _, _ => false

/-- Python membership `needle in container` for a string needle. -/
def pyIn (needle : String) (container : PyVal) : Except String Bool :=
  match container with
  | .str s => .ok (strContains s needle)
  | .list xs => .ok (xs.any (fun e => e.eqStr needle))
  | .dict kvs => .ok (kvs.any (fun kv => kv.fst = needle))
  | _ => .error "TypeError: in"

/-- Python `any(c in container for c in cs)` with short-circuiting. -/
def anyIn (cs : List String) (container : PyVal) : Except String Bool :=
  cs.foldlM (fun acc c => if acc then pure true else pyIn c container) false

/-- Senior-title keyword list (`profile_processor.py` line 255). -/
def senior_terms : List String :=
  ["founder", "co-founder", "principal", "staff", "lead", "head", "director",
   "professor", "research scientist"]

/-- Fixed prestige list of the judge heuristic (line 272); note it is
case-sensitive, unlike the company tier resolver. -/
def judge_tier_companies : List String :=
  ["Google", "Meta", "Apple", "Microsoft", "Amazon", "NVIDIA"]

/-- Category (a): senior-title keywords in the headline (lines 255-258). -/
def judgeSenior (headline : String) : ℕ × List String :=
  if senior_terms.any (fun t => strContains headline t) then
    (1, ["senior title"])
  else (0, [])

/-- Category (b): combined network size (lines 260-269).  Reads the keys
`linkedin_connections` / `linkedin_followers` from the basic-info block. -/
def judgeNetwork (basic : PyVal) : Except String (ℕ × List String) := do
  let connections := (← basic.getN "linkedin_connections").pyOr (.int 0)
  let followers := (← basic.getN "linkedin_followers").pyOr (.int 0)
  let total ← (connections.pyOr (.int 0)).pyAdd (followers.pyOr (.int 0))
  if (← total.pyGeNum 7000) then pure (2, ["large network ≥7k"])
  else if (← total.pyGeNum 3000) then pure (1, ["network ≥3k"])
  else pure (0, [])

/-- Category (c): current company in the prestige list (lines 271-275);
the Python `and` short-circuits on a falsy company. -/
def judgeCompany (current_company : PyVal) : Except String (ℕ × List String) := do
  if current_company.truthy then
    if (← anyIn judge_tier_companies current_company) then
      pure (1, ["tier-1 company"])
    else pure (0, [])
  else pure (0, [])

/-- Category (d): community involvement (lines 277-287); `len` is only
reached when `any([...])` holds, mirroring the `and` short-circuit. -/
def judgeCommunity (acc : PyVal) : Except String (ℕ × List String) := do
  let memberships := (← acc.get "memberships" (.list [])).pyOr (.list [])
  let prof_memberships :=
    (← acc.get "professional_memberships" (.list [])).pyOr (.list [])
  let orgs := (← acc.get "organizations" (.list [])).pyOr (.list [])
  let volunteer := (← acc.get "volunteer_experience" (.list [])).pyOr (.list [])
  if [memberships, prof_memberships, orgs, volunteer].any PyVal.truthy then
    let n := (← memberships.pyLen) + (← prof_memberships.pyLen) +
      (← orgs.pyLen) + (← volunteer.pyLen)
    if 1 ≤ n then pure (1, ["community roles/memberships"]) else pure (0, [])
  else pure (0, [])

/-- Category (e): visibility/impact records (lines 289-295). -/
def judgeVisibility (acc : PyVal) : Except String (ℕ × List String) := do
  let awards := (← acc.get "awards" (.list [])).pyOr (.list [])
  let publications := (← acc.get "publications" (.list [])).pyOr (.list [])
  let projects := (← acc.get "projects" (.list [])).pyOr (.list [])
  if [awards, publications, projects].any PyVal.truthy then
    pure (1, ["awards/publications/projects"])
  else pure (0, [])

/-- Category (f): recommendation count ≥ 5 (lines 297-301). -/
def judgeRecs (basic : PyVal) : Except String (ℕ × List String) := do
  let recs := (← basic.getN "recommendations_count").pyOr (.int 0)
  if (← recs.pyGeNum 5) then pure (1, ["≥5 recommendations"])
  else pure (0, [])

/-- The `try` body of `_compute_judge_auto_suggestion` (lines 246-304),
in source evaluation order. -/
def judgeRun (linkedin_data : PyVal) : Except String (ℚ × List String) := do
  let basic ← (linkedin_data.pyOr (.dict [])).get "basic_info" (.dict [])
  let headline ← pyLower ((← basic.getN "headline").pyOr (.str ""))
  let current_company := (← basic.getN "current_company").pyOr (.str "")
  let (p1, r1) := judgeSenior headline
  let (p2, r2) ← judgeNetwork basic
  let (p3, r3) ← judgeCompany current_company
  let acc ← (linkedin_data.pyOr (.dict [])).get "accomplishments" (.dict [])
  let (p4, r4) ← judgeCommunity acc
  let (p5, r5) ← judgeVisibility acc
  let (p6, r6) ← judgeRecs basic
  let score_points : ℕ := p1 + p2 + p3 + p4 + p5 + p6
  let max_points : ℕ := 6
  let score : ℚ :=
    if 0 < max_points then
      min 1 (max 0 ((score_points : ℚ) / (max_points : ℚ)))
    else 0
  pure (score, r1 ++ r2 ++ r3 ++ r4 ++ r5 ++ r6)

/-- `ProfileProcessor._compute_judge_auto_suggestion` (lines 244-306):
the advisory suitability heuristic; the catch-all `except` returns
`(None, "")`.  The `assessment` argument is unused by the source body. -/
def compute_judge_auto_suggestion (linkedin_data _assessment : PyVal) :
    Option ℚ × String :=
  match judgeRun linkedin_data with
  | .ok (score, reasons) =>
      (Option.some score, String.intercalate ", " reasons)
  | .error _ => (Option.none, "")

end JudgeHeuristic

section BrightData
/-!  `BrightDataService` (`src/app/services/brightdata_service.py`). -/

/-- One normalized experience entry (`brightdata_service.py` lines 212-221);
raises when the raw entry is not a dict. -/
def normalizeExperienceEntry (exp : PyVal) : Except String PyVal := do
  let title ← exp.get "title" (.str "")
  let company ← exp.get "company" (.str "")
  let location ← exp.get "location" (.str "")
  let start_date ← exp.get "start_date" (.str "")
  let end_date ← exp.get "end_date" (.str "")
  let description ← exp.get "description" (.str "")
  let duration ← exp.get "duration" (.str "")
  pure (.dict [("title", title), ("company", company), ("location", location),
    ("start_date", start_date), ("end_date", end_date),
    ("description", description), ("duration", duration)])

/-- One normalized education entry (lines 226-234). -/
def normalizeEducationEntry (edu : PyVal) : Except String PyVal := do
  let t ← edu.get "title" (.str "")
  let school := t.pyOr (← edu.get "school" (.str ""))
  let degree ← edu.get "degree" (.str "")
  let field ← edu.get "field" (.str "")
  let start_year ← edu.get "start_year" (.str "")
  let end_year ← edu.get "end_year" (.str "")
  let description ← edu.get "description" (.str "")
  pure (.dict [("school", school), ("degree", degree), ("field", field),
    ("start_year", start_year), ("end_year", end_year),
    ("description", description)])

/-- One normalized recommendation entry (lines 252-265): strings are kept
as bare text, anything else must be a dict. -/
def normalizeRecommendationEntry (rec : PyVal) : Except String PyVal := do
  match rec with
  | .str s =>
      pure (.dict [("recommender", .str ""), ("relationship", .str ""),
        ("text", .str s)])
  | _ => do
      let recommender ← rec.get "recommender" (.str "")
      let relationship ← rec.get "relationship" (.str "")
      let text ← rec.get "text" (.str "")
      pure (.dict [("recommender", recommender),
        ("relationship", relationship), ("text", text)])

/-- The `headline` extraction of line 185:
`raw.get("current_company", {}).get("name", "") if raw.get("current_company") else ""`. -/
def normalizeHeadline (raw_data : PyVal) : Except String PyVal := do
  let ccCond ← raw_data.getN "current_company"
  if ccCond.truthy then do
    (← raw_data.get "current_company" (.dict [])).get "name" (.str "")
  else pure (.str "")

/-- The experience-normalization loop of lines 209-221. -/
def normalizeExperienceList (raw_data : PyVal) : Except String (List PyVal) := do
  let experience_data := (← raw_data.getN "experience").pyOr (.list [])
  if experience_data.truthy then do
    (← experience_data.pyIter).mapM normalizeExperienceEntry
  else pure []

/-- The education-normalization loop of lines 223-234. -/
def normalizeEducationList (raw_data : PyVal) : Except String (List PyVal) := do
  let education_data := (← raw_data.getN "education").pyOr (.list [])
  if education_data.truthy then do
    (← education_data.pyIter).mapM normalizeEducationEntry
  else pure []

/-- The accomplishments block of lines 239-247 (six sub-lists copied from
the raw payload when present, the empty template otherwise). -/
def normalizeAccomplishments (raw_data : PyVal) : Except String PyVal := do
  let accomplishments ← raw_data.get "accomplishments" (.dict [])
  if accomplishments.truthy then do
    let publications ← accomplishments.get "publications" (.list [])
    let patents ← accomplishments.get "patents" (.list [])
    let awards ← accomplishments.get "awards" (.list [])
    let certifications ← accomplishments.get "certifications" (.list [])
    let languages ← accomplishments.get "languages" (.list [])
    let projects ← accomplishments.get "projects" (.list [])
    pure (PyVal.dict [("publications", publications),
      ("patents", patents), ("awards", awards),
      ("certifications", certifications), ("languages", languages),
      ("projects", projects)])
  else
    pure (PyVal.dict [("publications", .list []), ("patents", .list []),
      ("awards", .list []), ("certifications", .list []),
      ("languages", .list []), ("projects", .list [])])

/-- The recommendations-normalization loop of lines 249-265. -/
def normalizeRecommendationsList (raw_data : PyVal) :
    Except String (List PyVal) := do
  let recommendations_data := (← raw_data.getN "recommendations").pyOr (.list [])
  if recommendations_data.truthy then do
    (← recommendations_data.pyIter).mapM normalizeRecommendationEntry
  else pure []

/-- The `try` body of `BrightDataService._normalize_linkedin_data`
(lines 179-267), in source evaluation order.  The source first builds the
`normalized` template dict and then reassigns `experience`, `education`,
`skills`, `accomplishments` and `recommendations` in place; since the
reassigned keys are exactly the template keys in the same positions, the
final dict is built here directly with the same key order. -/
def normalizeRun (raw_data : PyVal) : Except String PyVal := do
  let name ← raw_data.get "name" (.str "")
  let headline ← normalizeHeadline raw_data
  let location :=
    (← raw_data.get "city" (.str "")).pyOr (← raw_data.get "location" (.str ""))
  let summary ← raw_data.get "summary" (.str "")
  let profile_url :=
    (← raw_data.get "url" (.str "")).pyOr (← raw_data.get "input_url" (.str ""))
  let profile_image ← raw_data.get "avatar" (.str "")
  let connections_count ← raw_data.get "connections" (.int 0)
  let followers_count ← raw_data.get "followers" (.int 0)
  let current_company ← raw_data.get "current_company_name" (.str "")
  let basic_info : PyVal := .dict [("name", name), ("headline", headline),
    ("location", location), ("summary", summary),
    ("profile_url", profile_url), ("profile_image", profile_image),
    ("connections_count", connections_count),
    ("followers_count", followers_count),
    ("current_company", current_company)]
  let experience ← normalizeExperienceList raw_data
  let education ← normalizeEducationList raw_data
  let skills ← raw_data.get "skills" (.list [])
  let accDict ← normalizeAccomplishments raw_data
  let recommendations ← normalizeRecommendationsList raw_data
  pure (.dict [("basic_info", basic_info), ("experience", .list experience),
    ("education", .list education), ("skills", skills),
    ("accomplishments", accDict),
    ("recommendations", .list recommendations), ("raw_data", raw_data)])

/-- `BrightDataService._normalize_linkedin_data` (lines 169-271): the
`except` handler degrades to the raw payload plus an error marker. -/
def normalize_linkedin_data (raw_data : PyVal) : PyVal :=
  match normalizeRun raw_data with
  | .ok v => v
  | .error e =>
      .dict [("raw_data", raw_data), ("normalization_error", .str e)]

/-- One HTTP-equivalent response of the BrightData snapshot endpoint. -/
structure BrightResp where
  code : ℕ
  body : PyVal

/-- Outcome of `_wait_for_results`.  The Python function returns the
normalized document on success and `None` both on poll exhaustion and on a
hard error response; `timeout` and `failure` record which control path
produced the `None` (loop exhaustion at line 162 vs `break` at line 160). -/
inductive PollOutcome where
  | success (v : PyVal)
  | timeout
  | failure

/-- `data.get("status") == "running"` for a 200-response dict body
(line 141). -/
def bodyStatusRunning (kvs : List (String × PyVal)) : Bool :=
  match PyVal.lookup kvs "status" with
  | Option.some (.str s) => s = "running"
  | _ => false

/-- Poll bound of `_wait_for_results` (line 120): 18 attempts × 10 s. -/
def max_poll_attempts : ℕ := 18

/-- The polling loop of `BrightDataService._wait_for_results`
(lines 122-160).  `polls` counts responses fetched so far, `remaining`
the attempts left, `sleeps` the fixed 10-second waits performed.
Returns (outcome, total polls issued, sleeps). -/
def wait_for_results_loop (backend : ℕ → BrightResp) :
    ℕ → ℕ → List ℕ → PollOutcome × ℕ × List ℕ
  | polls, 0, sleeps => (.timeout, polls, sleeps)
  | polls, remaining + 1, sleeps =>
      let resp := backend polls
      if resp.code = 200 then
        match resp.body with
        | .list (x :: _) =>
            (.success (normalize_linkedin_data x), polls + 1, sleeps)
        | .list [] => wait_for_results_loop backend (polls + 1) remaining sleeps
        | .dict kvs =>
            if kvs.any (fun kv => kv.fst = "id") then
              (.success (normalize_linkedin_data (.dict kvs)), polls + 1, sleeps)
            else if bodyStatusRunning kvs then
              wait_for_results_loop backend (polls + 1) remaining (sleeps ++ [10])
            else
              wait_for_results_loop backend (polls + 1) remaining sleeps
        | _ => wait_for_results_loop backend (polls + 1) remaining sleeps
      else if resp.code = 202 ∨ resp.code = 404 then
        wait_for_results_loop backend (polls + 1) remaining (sleeps ++ [10])
      else (.failure, polls + 1, sleeps)

/-- `BrightDataService._wait_for_results` (lines 104-167) for a given
backend behaviour (response to the i-th poll). -/
def wait_for_results (backend : ℕ → BrightResp) : PollOutcome × ℕ × List ℕ :=
  wait_for_results_loop backend 0 max_poll_attempts []

end BrightData

section SocialReach
/-!  `GPTScoringService.analyze_social_influence`
     (`src/app/services/scoring_v1.py` lines 94-165), numeric core.
     `math.log10` forces a model over `ℝ`; Python `int()` truncation on
     the non-negative score equals `Int.floor`. -/

/-- The continuous logarithmic reach score (lines 120-124):
`min(10, max(0, 1.5 + 2.5 * log10(reach + 50)))` for positive reach,
`0` for zero reach. -/
noncomputable def social_reach_score_cont (reach : ℕ) : ℝ :=
  if 0 < reach then
    min 10 (max 0 (1.5 + 2.5 * Real.logb 10 ((reach : ℝ) + 50)))
  else 0

/-- The influence score returned by `analyze_social_influence`
(line 165, `int(social_reach_score)`) as a function of
`reach = followers + connections`. -/
noncomputable def analyze_social_influence_score
    (followers connections : ℕ) : ℤ :=
  ⌊social_reach_score_cont (followers + connections)⌋

/-- The threshold level label of lines 130-159 (computed for the analysis
string; the returned numeric score is the logarithmic one). -/
def social_reach_level (reach : ℕ) : ℕ × String :=
  if 50000 ≤ reach then (10, "Major Influencer")
  else if 25000 ≤ reach then (9, "Strong Influencer")
  else if 10000 ≤ reach then (8, "Notable Influence")
  else if 5000 ≤ reach then (7, "Good Influence")
  else if 2500 ≤ reach then (6, "Moderate Influence")
  else if 1000 ≤ reach then (5, "Some Influence")
  else if 500 ≤ reach then (4, "Limited Influence")
  else if 100 ≤ reach then (3, "Minimal Influence")
  else if 0 < reach then (2, "Basic Presence")
  else (1, "No Social Presence")

end SocialReach

section Orchestrator
/-!  `ProfileProcessor` (`src/app/services/profile_processor.py`).
     The profile store is a `List Profile` in insertion order; the audit
     log is the list of rows appended during one run, in order.  The two
     external collaborators (BrightData scrape, GPT assessment) are an
     explicit environment of call outcomes.  The structured `data` payload
     of `ProcessingLog` rows is omitted: no claim reads it. -/

/-- The processing-relevant columns of `app.models.profile.Profile`
(CSV-intake columns that the pipeline never touches are omitted). -/
structure Profile where
  id : String
  name : String := ""
  email : String := ""
  linkedin_profile : Option String := Option.none
  linkedin_data : Option PyVal := Option.none
  social_links : Option PyVal := Option.none
  gpt_assessment : Option PyVal := Option.none
  o1_evidence : Option PyVal := Option.none
  final_score : Option ℚ := Option.none
  ranking : Option ℕ := Option.none
  processing_status : String := "pending"
  judge_status : String := "unknown"
  judge_auto_score : Option ℚ := Option.none
  judge_auto_reason : Option String := Option.none
  updated_at : ℕ := 0

/-- One `ProcessingLog` row (step, status, message). -/
structure LogRow where
  step : String
  status : String
  message : String
deriving DecidableEq, Repr

/-- Outcome of one external collaborator call. -/
inductive CallOutcome where
  | raises (msg : String)
  | returns (v : PyVal)

/-- Environment of a single orchestrator run: what the BrightData scrape
and the GPT assessment would produce if invoked. -/
structure Env where
  scrape : CallOutcome
  assess : CallOutcome

/-- `db.commit()` after mutating one profile: replace the first store
entry carrying its id. -/
def commitProfile : List Profile → Profile → List Profile
  | [], _ => []
  | q :: rest, p => if q.id = p.id then p :: rest else q :: commitProfile rest p

/-- Sort key for `_update_rankings`: store position and final score of a
completed, scored profile. -/
structure RankEntry where
  idx : ℕ
  score : ℚ
deriving DecidableEq

/-- The query filter of `_update_rankings` (lines 312-315): completed
profiles with a non-null final score, tagged with store position
(positions counted from `n`). -/
def completedEntriesFrom : ℕ → List Profile → List RankEntry
  | _, [] => []
  | n, p :: rest =>
      match p.final_score with
      | Option.some q =>
          if p.processing_status = "completed" then
            ⟨n, q⟩ :: completedEntriesFrom (n + 1) rest
          else completedEntriesFrom (n + 1) rest
      | Option.none => completedEntriesFrom (n + 1) rest

/-- The completed, scored profiles of the store with their positions. -/
def completedEntries (db : List Profile) : List RankEntry :=
  completedEntriesFrom 0 db

/-- What the source's `order_by(Profile.final_score.desc())` (line 315)
actually guarantees about adjacent rows: a non-increasing final score.
The query has no secondary sort key, so the relative order of rows with
equal scores is left unspecified by the SQL contract. -/
def scoreDesc (a b : RankEntry) : Prop := b.score ≤ a.score

instance : DecidableRel scoreDesc := fun a b => by
  unfold scoreDesc; infer_instance

/-- An order the database may return for the completed-profile query of
`_update_rankings` (lines 312-315): any permutation of the completed,
scored entries that is non-increasing in final score.  Ties are left
unconstrained, exactly as the unqualified `ORDER BY` leaves them. -/
def dbOrder (db : List Profile) (sorted : List RankEntry) : Prop :=
  sorted.Perm (completedEntries db) ∧ sorted.Sorted scoreDesc

/-- One specific admissible tie order — equal scores kept in store
order — used only to keep `update_rankings` (and hence
`process_profile`) an executable function.  This choice is *not* a
guarantee of the source: the properties of `_update_rankings` are proved
against every `dbOrder` in `update_rankings_spec`, and the claim that the
program itself breaks ties by store order is refuted in
`update_rankings_tie_counterexample`. -/
def rankLe (a b : RankEntry) : Prop :=
  b.score < a.score ∨ (a.score = b.score ∧ a.idx ≤ b.idx)

instance : DecidableRel rankLe := fun a b => by
  unfold rankLe; infer_instance

/-- Position of the entry for store position `i` in a sorted entry list
(the 0-based rank the re-rank loop will assign, via
`enumerate(profiles, 1)`). -/
def findIdxOf (i : ℕ) : List RankEntry → Option ℕ
  | [] => Option.none
  | e :: rest =>
      if e.idx = i then Option.some 0 else (findIdxOf i rest).map (· + 1)

/-- Write the computed ranks back into the store (`profile.ranking = rank`
for each queried profile, positions counted from `n`); profiles outside
the query keep whatever ranking they had. -/
def applyRanksFrom (S : List RankEntry) : ℕ → List Profile → List Profile
  | _, [] => []
  | n, p :: rest =>
      (match findIdxOf n S with
        | Option.some pos => {p with ranking := Option.some (pos + 1)}
        | Option.none => p) :: applyRanksFrom S (n + 1) rest

/-- `ProfileProcessor._update_rankings` (lines 308-325) given the order
`sorted` the database returned for its query: rank 1.. assigned along
that order (`for rank, profile in enumerate(profiles, 1)`); other
profiles are untouched. -/
def update_rankings_with (db : List Profile) (sorted : List RankEntry) :
    List Profile :=
  applyRanksFrom sorted 0 db

/-- The rank such a run assigns to the profile at store position `i`
(`none` when that position is not in the ranked set). -/
def assignedRank_with (sorted : List RankEntry) (i : ℕ) : Option ℕ :=
  (findIdxOf i sorted).map (· + 1)

/-- Executable refinement of `_update_rankings` under the one admissible
database order fixed by `rankLe` (see its doc comment); used by
`process_profile` so the whole run stays a function.  No property proved
of the program relies on this tie choice beyond its admissibility
(`insertionSort_rankLe_dbOrder`). -/
def update_rankings (db : List Profile) : List Profile :=
  update_rankings_with db (List.insertionSort rankLe (completedEntries db))

/-- `ProfileProcessor._handle_processing_error` (lines 327-343): mark the
profile failed, commit, append one failed audit row, return the error
payload. -/
def handle_processing_error (p : Profile) (db : List Profile)
    (step msg : String) : Profile × List Profile × List LogRow × PyVal :=
  let p2 := {p with processing_status := "failed"}
  (p2, commitProfile db p2, [⟨step, "failed", msg⟩],
    .dict [("error", .str msg), ("profile_id", .str p.id),
      ("failed_step", .str step)])

/-- `ProfileProcessor._scrape_linkedin_profile` (lines 147-165): log
`started`, call BrightData, log `completed`/`failed`, return the data or
`None`. -/
def scrape_step (env : Env) : Option PyVal × List LogRow :=
  let started : LogRow := ⟨"brightdata_scraping", "started",
    "Starting LinkedIn scraping"⟩
  match env.scrape with
  | .raises m => (Option.none, [started, ⟨"brightdata_scraping", "failed", m⟩])
  | .returns v =>
      if v.truthy then
        (Option.some v, [started, ⟨"brightdata_scraping", "completed",
          "LinkedIn scraping successful"⟩])
      else
        (Option.none, [started, ⟨"brightdata_scraping", "failed",
          "Scraping returned no data"⟩])

/-- Failure message of the `gpt_assessment` failed row for a dict result
(line 205, `assessment.get("error", "Unknown GPT error")`); a non-string
error value is abstracted as "error value". -/
def gptFailMsgDict (kvs : List (String × PyVal)) : String :=
  match PyVal.lookup kvs "error" with
  | Option.some (.str s) => s
  | Option.some _ => "error value"
  | Option.none => "Unknown GPT error"

/-- `ProfileProcessor._assess_with_gpt` (lines 190-210): log `started`,
call GPT, log `completed`/`failed`, return the assessment or `None`.  A
truthy non-dict result raises at the `assessment.get("error")` access and
is logged as failed by the handler; so is a falsy non-dict one at the
failure-logging line itself. -/
def assess_step (env : Env) : Option PyVal × List LogRow :=
  let started : LogRow := ⟨"gpt_assessment", "started",
    "Starting GPT assessment"⟩
  match env.assess with
  | .raises m => (Option.none, [started, ⟨"gpt_assessment", "failed", m⟩])
  | .returns v =>
      match v with
      | .dict kvs =>
          if (PyVal.dict kvs).truthy ∧
              ¬(((PyVal.lookup kvs "error").getD .none).truthy = true) then
            (Option.some v, [started, ⟨"gpt_assessment", "completed",
              "GPT assessment successful"⟩])
          else
            (Option.none, [started, ⟨"gpt_assessment", "failed",
              gptFailMsgDict kvs⟩])
      | _ =>
          (Option.none, [started, ⟨"gpt_assessment", "failed",
            "AttributeError: get"⟩])

/-- Encode an optional rational as the profile-JSON value it came from. -/
def optScoreVal : Option ℚ → PyVal
  | Option.some q => .float q
  | Option.none => .none

/-- `ProfileProcessor._save_results` (lines 212-242): write all derived
fields, auto-suggest the judge status, commit, log `save_results`
`completed`.  Errors inside the body (only possible at the
`assessment.get` accesses) re-raise after logging a failed row. -/
def save_results (p : Profile) (linkedin_data social_links assessment : PyVal)
    (now : ℕ) : Except (String × List LogRow) (Profile × List LogRow) :=
  match assessment.get "evidence" (.dict []) with
  | .error m => .error (m, [⟨"save_results", "failed", m⟩])
  | .ok evidence =>
    match assessment.get "overall_score" (.float 0) with
    | .error m => .error (m, [⟨"save_results", "failed", m⟩])
    | .ok overall =>
      let suggestion := compute_judge_auto_suggestion linkedin_data assessment
      let auto_score := suggestion.1
      let auto_reason := suggestion.2
      let newJudgeStatus :=
        if p.judge_status = "" ∨ p.judge_status = "unknown" then
          match auto_score with
          | Option.some q => if (6 : ℚ)/10 ≤ q then "candidate" else "unknown"
          | Option.none => "unknown"
        else p.judge_status
      let p2 := {p with
        linkedin_data := Option.some linkedin_data,
        social_links := Option.some social_links,
        gpt_assessment := Option.some assessment,
        o1_evidence := Option.some evidence,
        final_score := overall.toNum,
        processing_status := "completed",
        updated_at := now,
        judge_auto_score := auto_score,
        judge_auto_reason := Option.some auto_reason,
        judge_status := newJudgeStatus}
      .ok (p2, [⟨"save_results", "completed", "Results saved successfully"⟩])

/-- Everything observable about one `process_profile` run. -/
structure RunResult where
  db : List Profile
  log : List LogRow
  result : PyVal
  statusTrace : List String
  scrapeCalls : ℕ
  assessCalls : ℕ

/-- `ProfileProcessor.process_profile` (lines 29-102): the per-profile
pipeline.  `statusTrace` records every value written to
`processing_status`, in order; `scrapeCalls`/`assessCalls` count external
collaborator invocations. -/
def process_profile (db : List Profile) (profile_id : String) (env : Env)
    (now : ℕ) : RunResult :=
  match db.find? (fun p => p.id = profile_id) with
  | Option.none =>
      ⟨db, [], .dict [("error", .str "Profile not found"),
        ("profile_id", .str profile_id)], [], 0, 0⟩
  | Option.some profile0 =>
    let profile := {profile0 with processing_status := "processing"}
    let db1 := commitProfile db profile
    let url := profile.linkedin_profile.getD ""
    if url = "" then
      let h := handle_processing_error profile db1 "linkedin_url"
        "No LinkedIn profile URL available"
      ⟨h.2.1, h.2.2.1, h.2.2.2, ["processing", "failed"], 0, 0⟩
    else
      let s := scrape_step env
      match s.1 with
      | Option.none =>
          let h := handle_processing_error profile db1 "brightdata_scraping"
            "LinkedIn scraping failed"
          ⟨h.2.1, s.2 ++ h.2.2.1, h.2.2.2, ["processing", "failed"], 1, 0⟩
      | Option.some linkedin_data =>
        let social_links : PyVal := .dict [("linkedin", .str url)]
        let a := assess_step env
        match a.1 with
        | Option.none =>
            let h := handle_processing_error profile db1 "gpt_assessment"
              "GPT assessment failed"
            ⟨h.2.1, s.2 ++ a.2 ++ h.2.2.1, h.2.2.2,
              ["processing", "failed"], 1, 1⟩
        | Option.some assessment =>
          match save_results profile linkedin_data social_links assessment now with
          | .error em =>
              -- the re-raised save error reaches the top-level handler as
              -- a "general" failed step (lines 95-100)
              let h := handle_processing_error profile db1 "general" em.1
              ⟨h.2.1, s.2 ++ a.2 ++ em.2 ++ h.2.2.1, h.2.2.2,
                ["processing", "failed"], 1, 1⟩
          | .ok pr =>
              let db2 := commitProfile db1 pr.1
              let db3 := update_rankings db2
              let finalRanking :=
                (db3.find? (fun p => p.id = profile_id)).bind Profile.ranking
              ⟨db3, s.2 ++ a.2 ++ pr.2,
                .dict [("success", .bool true), ("profile_id", .str profile_id),
                  ("final_score", optScoreVal pr.1.final_score),
                  ("ranking", match finalRanking with
                    | Option.some r => .int r
                    | Option.none => .none)],
                ["processing", "completed"], 1, 1⟩

end Orchestrator

section Fixtures
/-!  Concrete example data used by witnesses and counterexamples. -/

/-- Example LinkedIn URL. -/
def exUrl : String := "https://linkedin.com/in/example"

/-- A profile carrying an external reference. -/
def pOk : Profile :=
  { id := "p1", name := "Ada", email := "ada@example.com",
    linkedin_profile := Option.some exUrl }

/-- A profile lacking an external reference. -/
def pNoUrl : Profile :=
  { id := "p2", name := "Bob", email := "bob@example.com" }

/-- Example scraped document. -/
def exScrapeData : PyVal :=
  .dict [("basic_info", .dict [("name", .str "Ada")])]

/-- Example successful assessment payload. -/
def exAssessment : PyVal :=
  .dict [("overall_score", .float 8),
    ("evidence", .dict [("awards", .list [])])]

/-- Environment where both collaborators succeed. -/
def envAllOk : Env := ⟨.returns exScrapeData, .returns exAssessment⟩

/-- Environment where the scrape returns no data. -/
def envScrapeFail : Env := ⟨.returns .none, .returns exAssessment⟩

/-- Environment where the assessment call raises. -/
def envAssessFail : Env := ⟨.returns exScrapeData, .raises "GPT call failed"⟩

/-- Backend that always reports a running snapshot. -/
def bAlwaysRunning : ℕ → BrightResp :=
  fun _ => ⟨200, .dict [("status", .str "running")]⟩

/-- Backend that reports not-yet-found twice, then a non-empty result
list. -/
def bRunThenOk : ℕ → BrightResp :=
  fun i =>
    if i < 2 then ⟨404, .none⟩
    else ⟨200, .list [.dict [("name", .str "X")]]⟩

/-- Backend that reports running twice then a hard server error. -/
def bHardFail : ℕ → BrightResp :=
  fun i => if i < 2 then ⟨202, .none⟩ else ⟨500, .none⟩

/-- Completed profile, score 5, first in store order. -/
def pRankA : Profile :=
  { id := "a", processing_status := "completed",
    final_score := Option.some 5 }

/-- Completed profile, score 7. -/
def pRankB : Profile :=
  { id := "b", processing_status := "completed",
    final_score := Option.some 7 }

/-- Pending, unscored profile. -/
def pRankC : Profile := { id := "c", processing_status := "pending" }

/-- Completed profile tied with `pRankA` at score 5, later in store
order. -/
def pRankD : Profile :=
  { id := "d", processing_status := "completed",
    final_score := Option.some 5 }

/-- Example ranking store with a score tie. -/
def exRankDb : List Profile := [pRankA, pRankB, pRankC, pRankD]

/-- An admissible database order for `exRankDb` that keeps the tied
entries (positions 0 and 3, both score 5) in store order. -/
def exStableOrder : List RankEntry := [⟨1, 7⟩, ⟨0, 5⟩, ⟨3, 5⟩]

/-- Another admissible database order for `exRankDb` — same scores, but
the tied entries swapped — which the unqualified `ORDER BY` may equally
return. -/
def exBadOrder : List RankEntry := [⟨1, 7⟩, ⟨3, 5⟩, ⟨0, 5⟩]

/-- Decidable check that the scrape call of an environment succeeds
(returns truthy data). -/
def scrapeOkB (env : Env) : Bool :=
  match env.scrape with
  | .returns v => v.truthy
  | .raises _ => false

/-- Decidable check that the assessment call of an environment succeeds
(truthy dict without a truthy `error` entry). -/
def assessOkB (env : Env) : Bool :=
  match env.assess with
  | .returns (.dict kvs) =>
      (PyVal.dict kvs).truthy && !((PyVal.lookup kvs "error").getD .none).truthy
  | _ => false

/-- Decidable check that a full run on profile `p` under `env` reaches the
persistence step (URL present, scrape and assessment both succeed). -/
def runSucceedsB (p : Profile) (env : Env) : Bool :=
  (p.linkedin_profile.getD "" != "") && scrapeOkB env && assessOkB env

end Fixtures

/-- A "still running / not yet found" response of the snapshot endpoint:
HTTP 200 with a dict body that lacks an `id` key and carries
`status == "running"`, or HTTP 202, or HTTP 404 (all three continue
polling after a 10-second sleep). -/
def runningShape (r : BrightResp) : Prop :=
  (r.code = 200 ∧ ∃ kvs, r.body = .dict kvs ∧
    kvs.any (fun kv => kv.fst = "id") = false ∧
    bodyStatusRunning kvs = true) ∨
  r.code = 202 ∨ r.code = 404

/-- The reason texts the judge heuristic can emit outside the two
network categories (`profile_processor.py` lines 258, 275, 287, 295,
301). -/
def judge_reason_texts : List String :=
  ["senior title", "tier-1 company", "community roles/memberships",
   "awards/publications/projects", "≥5 recommendations"]

/-- The fixed key list of the `basic_info` block built by
`_normalize_linkedin_data` (lines 183-193). -/
def normalized_basic_info_keys : List String :=
  ["name", "headline", "location", "summary", "profile_url",
   "profile_image", "connections_count", "followers_count",
   "current_company"]

/-! ## Helper lemmas -/

theorem strLower_eq_empty {s : String} (h : strLower s = "") : s = "" := by
  cases s with
  | mk data =>
    have hd : data.map lowerChar = [] := congrArg String.data h
    have h0 : data = [] := List.map_eq_nil_iff.mp hd
    subst h0
    rfl

theorem resolve_company_tier_of_ne {s : String} (h1 : s ≠ "")
    (h2 : s ≠ "N/A") :
    resolve_company_tier s = resolve_company_tier_lower (strLower s) := by
  simp only [resolve_company_tier]
  exact if_neg (fun hor => hor.elim h1 h2)

/-! ## C2 — company tier resolver -/

/-- C2 (counterexample): the claim asserts
`resolve("random startup LLC") = "D"`, but the tier-C substring list
contains `"startup"`, so the resolver returns `"C"` on that exact input. -/
theorem company_tier_startup_counterexample :
    resolve_company_tier "random startup LLC" = "C" ∧
    resolve_company_tier "random startup LLC" ≠ "D" := by
  constructor
  · decide
  · decide

/-- C2 (amended): `resolve("Google Inc") = "A"`;
`resolve("random startup LLC") = "C"` (the name contains the tier-C
substring `"startup"`); resolution is case-insensitive; the lists are
checked from highest tier down with first match winning (a tier-A match
always yields `"A"`); no match, or empty/placeholder input, yields the
lowest tier `"D"`. -/
theorem company_tier_resolution :
    resolve_company_tier "Google Inc" = "A" ∧
    resolve_company_tier "random startup LLC" = "C" ∧
    (∀ s t, strLower s = strLower t →
      resolve_company_tier s = resolve_company_tier t) ∧
    (∀ s, s ≠ "" → s ≠ "N/A" →
      tier_a.any (fun c => strContains (strLower s) c) = true →
      resolve_company_tier s = "A") ∧
    (∀ s, (tier_a ++ tier_a_minus ++ tier_b ++ tier_c).all
        (fun c => !strContains (strLower s) c) = true →
      resolve_company_tier s = "D") ∧
    resolve_company_tier "" = "D" ∧ resolve_company_tier "N/A" = "D" := by
  refine ⟨by decide, by decide, ?_, ?_, ?_, by decide, by decide⟩
  · intro s t h
    by_cases hs1 : s = ""
    · subst hs1
      have ht : t = "" := strLower_eq_empty h.symm
      subst ht; rfl
    · by_cases hs2 : s = "N/A"
      · subst hs2
        by_cases ht1 : t = ""
        · subst ht1
          exact absurd (strLower_eq_empty h) (by decide)
        · by_cases ht2 : t = "N/A"
          · subst ht2; rfl
          · have h2 : strLower t = "n/a" :=
              h.symm.trans (by decide : strLower "N/A" = "n/a")
            rw [resolve_company_tier_of_ne ht1 ht2, h2]
            decide
      · by_cases ht1 : t = ""
        · subst ht1
          exact absurd (strLower_eq_empty h) hs1
        · by_cases ht2 : t = "N/A"
          · subst ht2
            have h2 : strLower s = "n/a" :=
              h.trans (by decide : strLower "N/A" = "n/a")
            rw [resolve_company_tier_of_ne hs1 hs2, h2]
            decide
          · rw [resolve_company_tier_of_ne hs1 hs2,
              resolve_company_tier_of_ne ht1 ht2, h]
  · intro s h1 h2 hmatch
    rw [resolve_company_tier_of_ne h1 h2]
    simp [resolve_company_tier_lower, hmatch]
  · intro s hall
    by_cases hs : s = "" ∨ s = "N/A"
    · simp only [resolve_company_tier, if_pos hs]
    · push_neg at hs
      rw [resolve_company_tier_of_ne hs.1 hs.2]
      have h' : ∀ c ∈ tier_a ++ tier_a_minus ++ tier_b ++ tier_c,
          strContains (strLower s) c = false := by
        intro c hc
        have := List.all_eq_true.mp hall c hc
        simpa using this
      have ha : tier_a.any (fun c => strContains (strLower s) c) = false := by
        rw [List.any_eq_false]
        intro c hc
        simp [h' c (by simp [hc])]
      have ham : tier_a_minus.any (fun c => strContains (strLower s) c) = false := by
        rw [List.any_eq_false]
        intro c hc
        simp [h' c (by simp [hc])]
      have hb : tier_b.any (fun c => strContains (strLower s) c) = false := by
        rw [List.any_eq_false]
        intro c hc
        simp [h' c (by simp [hc])]
      have hc : tier_c.any (fun c => strContains (strLower s) c) = false := by
        rw [List.any_eq_false]
        intro c hc
        simp [h' c (by simp [hc])]
      simp [resolve_company_tier_lower, ha, ham, hb, hc]

/-- C2 witness: the amended theorem applied at a concrete pair of inputs
differing only in case. -/
theorem company_tier_resolution_witness :
    resolve_company_tier "GOOGLE" = resolve_company_tier "google" :=
  company_tier_resolution.2.2.1 "GOOGLE" "google" (by decide)

/-! ## C9 — seniority classifier examples -/

/-- C9: `classify("")` is the lowest tier regardless of company;
`classify("Founder")` and `classify("CTO")` are the top tier with score
10; `classify("Senior Engineer")` is the Senior tier with score in 4..6
(it is 5); `classify("Software Engineer")` is the lowest tier. -/
theorem seniority_classifier_examples :
    (∀ company, classify_seniority_level "" company =
      ("Junior", 2, "No job title available")) ∧
    classify_seniority_level "Founder" =
      ("VP", 10, "VP-level title: Founder") ∧
    classify_seniority_level "CTO" = ("VP", 10, "VP-level title: CTO") ∧
    ((classify_seniority_level "Senior Engineer").1 = "Senior" ∧
      4 ≤ (classify_seniority_level "Senior Engineer").2.1 ∧
      (classify_seniority_level "Senior Engineer").2.1 ≤ 6) ∧
    (classify_seniority_level "Software Engineer").1 = "Junior" := by
  refine ⟨fun c => rfl, by decide, by decide,
    ⟨by decide, by decide, by decide⟩, by decide⟩

/-- C9 witness: the classifier theorem applied at a concrete company. -/
theorem seniority_classifier_examples_witness :
    classify_seniority_level "" "Google" =
      ("Junior", 2, "No job title available") :=
  seniority_classifier_examples.1 "Google"

/-! ## C7 — suitability heuristic totality -/

theorem judgeRun_ok_score_bounds (ld : PyVal) (q : ℚ) (rs : List String)
    (h : judgeRun ld = .ok (q, rs)) : 0 ≤ q ∧ q ≤ 1 := by
  simp only [judgeRun, bind, Except.bind, pure, Except.pure] at h
  repeat' split at h
  all_goals try exact Except.noConfusion h
  all_goals
    (injection h with h1
     injection h1 with ha hb
     subst ha)
  all_goals try exact ⟨le_min zero_le_one (le_max_left _ _), min_le_left _ _⟩
  all_goals exact ⟨le_refl 0, zero_le_one⟩

/-- C7: the suitability heuristic is a total Lean function (it never
raises); on the empty input it returns `(0.0, "")`; every non-null score
it returns lies in `[0, 1]` (integer points divided by the fixed maximum 6
and clamped); and its catch-all failure path returns `(null, "")`. -/
theorem suitability_heuristic_total :
    compute_judge_auto_suggestion (.dict []) (.dict []) = (Option.some 0, "") ∧
    (∀ ld a q, (compute_judge_auto_suggestion ld a).1 = Option.some q →
      0 ≤ q ∧ q ≤ 1) ∧
    (∀ ld a, (compute_judge_auto_suggestion ld a).1 = Option.none →
      (compute_judge_auto_suggestion ld a).2 = "") := by
  refine ⟨?_, ?_, ?_⟩
  · simp [compute_judge_auto_suggestion, judgeRun, PyVal.pyOr, PyVal.get,
      PyVal.getN, PyVal.truthy, PyVal.lookup, pyLower, strLower, judgeSenior,
      judgeNetwork, judgeCompany, judgeCommunity, judgeVisibility, judgeRecs,
      PyVal.pyAdd, PyVal.toNum, PyVal.pyGeNum, senior_terms, strContains,
      String.intercalate, bind, Except.bind, pure, Except.pure]
    norm_num
  · intro ld a q h
    unfold compute_judge_auto_suggestion at h
    cases hr : judgeRun ld with
    | ok v =>
        rw [hr] at h
        simp only at h
        obtain ⟨s, rs⟩ := v
        simp only [Option.some.injEq] at h
        subst h
        exact judgeRun_ok_score_bounds ld s rs hr
    | error e =>
        rw [hr] at h
        simp at h
  · intro ld a h
    unfold compute_judge_auto_suggestion at h ⊢
    cases hr : judgeRun ld with
    | ok v =>
        rw [hr] at h
        obtain ⟨s, rs⟩ := v
        simp at h
    | error e => rfl

/-- C7 witness: the bounds part applied at the concrete empty input, with
its score hypothesis discharged from the empty-input part. -/
theorem suitability_heuristic_total_witness : 0 ≤ (0 : ℚ) ∧ (0 : ℚ) ≤ 1 :=
  suitability_heuristic_total.2.1 (.dict []) (.dict []) 0
    (congrArg Prod.fst suitability_heuristic_total.1)

/-! ## C8 — social reach scorer -/

theorem social_reach_score_cont_nonneg (r : ℕ) :
    0 ≤ social_reach_score_cont r := by
  unfold social_reach_score_cont
  split
  · exact le_min (by norm_num) (le_max_left 0 _)
  · exact le_refl 0

theorem social_reach_score_cont_le_ten (r : ℕ) :
    social_reach_score_cont r ≤ 10 := by
  unfold social_reach_score_cont
  split
  · exact min_le_left _ _
  · norm_num

theorem social_reach_score_cont_mono {r r' : ℕ} (h : r ≤ r') :
    social_reach_score_cont r ≤ social_reach_score_cont r' := by
  by_cases hr : 0 < r
  · have hr' : 0 < r' := lt_of_lt_of_le hr h
    unfold social_reach_score_cont
    rw [if_pos hr, if_pos hr']
    refine min_le_min (le_refl 10) (max_le_max (le_refl 0) ?_)
    have hx : (0 : ℝ) < (r : ℝ) + 50 := by positivity
    have hy : (0 : ℝ) < (r' : ℝ) + 50 := by positivity
    have hle : (r : ℝ) + 50 ≤ (r' : ℝ) + 50 := by
      have : (r : ℝ) ≤ (r' : ℝ) := by exact_mod_cast h
      linarith
    have hlog := (Real.logb_le_logb (by norm_num : (1:ℝ) < 10) hx hy).mpr hle
    nlinarith [hlog]
  · have h0 : r = 0 := Nat.eq_zero_of_not_pos hr
    subst h0
    calc social_reach_score_cont 0 = 0 := by
          unfold social_reach_score_cont; norm_num
    _ ≤ social_reach_score_cont r' := social_reach_score_cont_nonneg r'

/-- C8: the returned influence score is in `[0, 10]` and monotonically
non-decreasing in `reach = followers + connections`; at `reach = 0` the
score is 0; for positive reach the continuous score the function computes
(and retains in its analysis string) is exactly
`clamp(0, 10, 1.5 + 2.5 * log10(reach + 50))`, and the returned value is
its integer truncation (`int(...)` at line 165 of `scoring_v1.py`). -/
theorem social_reach_score_props (followers connections f2 c2 : ℕ) :
    (0 ≤ analyze_social_influence_score followers connections ∧
      analyze_social_influence_score followers connections ≤ 10) ∧
    (followers + connections ≤ f2 + c2 →
      analyze_social_influence_score followers connections ≤
        analyze_social_influence_score f2 c2) ∧
    (followers + connections = 0 →
      analyze_social_influence_score followers connections = 0) ∧
    (0 < followers + connections →
      social_reach_score_cont (followers + connections) =
        min 10 (max 0 (1.5 + 2.5 * Real.logb 10
          (((followers + connections : ℕ) : ℝ) + 50))) ∧
      analyze_social_influence_score followers connections =
        ⌊social_reach_score_cont (followers + connections)⌋) := by
  refine ⟨⟨?_, ?_⟩, ?_, ?_, ?_⟩
  · exact Int.le_floor.mpr (by exact_mod_cast social_reach_score_cont_nonneg _)
  · have := Int.floor_le_floor
      (social_reach_score_cont_le_ten (followers + connections))
    simpa [analyze_social_influence_score] using this
  · intro h
    exact Int.floor_le_floor (social_reach_score_cont_mono h)
  · intro h
    unfold analyze_social_influence_score social_reach_score_cont
    rw [if_neg (by omega)]
    exact Int.floor_zero
  · intro h
    constructor
    · unfold social_reach_score_cont
      rw [if_pos h]
    · rfl

/-- C8 witness: monotonicity and the zero case applied at concrete
counts. -/
theorem social_reach_score_props_witness :
    analyze_social_influence_score 0 0 ≤ analyze_social_influence_score 1 0 ∧
    analyze_social_influence_score 0 0 = 0 :=
  ⟨(social_reach_score_props 0 0 1 0).2.1 (by decide),
   (social_reach_score_props 0 0 1 0).2.2.1 rfl⟩

/-! ## C4 — external job poller result-wait phase -/

theorem wait_loop_running_step (backend : ℕ → BrightResp) (n rem : ℕ)
    (sleeps : List ℕ) (h : runningShape (backend n)) :
    wait_for_results_loop backend n (rem + 1) sleeps =
    wait_for_results_loop backend (n + 1) rem (sleeps ++ [10]) := by
  rcases h with ⟨h200, kvs, hbody, hid, hrun⟩ | hc | hc
  · simp [wait_for_results_loop, h200, hbody, hid, hrun]
  · have hne : ¬ (backend n).code = 200 := by omega
    simp [wait_for_results_loop, hne, hc]
  · have hne : ¬ (backend n).code = 200 := by omega
    simp [wait_for_results_loop, hne, hc]

theorem wait_loop_skip (backend : ℕ → BrightResp) (j : ℕ) :
    ∀ (n rem : ℕ) (sleeps : List ℕ), j ≤ rem →
    (∀ i, n ≤ i → i < n + j → runningShape (backend i)) →
    wait_for_results_loop backend n rem sleeps =
    wait_for_results_loop backend (n + j) (rem - j)
      (sleeps ++ List.replicate j 10) := by
  induction j with
  | zero => intro n rem sleeps _ _; simp
  | succ j ih =>
      intro n rem sleeps hj hrun
      obtain ⟨r, rfl⟩ : ∃ r, rem = r + 1 := ⟨rem - 1, by omega⟩
      rw [wait_loop_running_step backend n r sleeps
        (hrun n (le_refl n) (by omega))]
      rw [ih (n + 1) r (sleeps ++ [10]) (by omega)
        (fun i h1 h2 => hrun i (by omega) (by omega))]
      have h1 : n + 1 + j = n + (j + 1) := by omega
      have h2 : r - j = r + 1 - (j + 1) := by omega
      rw [h1, h2, List.append_assoc]
      simp [List.replicate_succ]

/-- C4: if the backend reports a still-running/not-yet-found shape for the
first `k` polls (`k` below the 18-attempt bound) and then a terminal
success shape (non-empty result list, or single result object carrying an
`id` key), the poller returns that normalized result having issued exactly
`k + 1` polls (none after the success) with one fixed 10-second sleep per
waiting poll; if the backend always reports still-running, the poller
sleeps 10 seconds per attempt for 18 attempts and returns the Timeout
outcome; any other HTTP status is a hard failure abandoning further
polls. -/
theorem poller_wait_behaviour (backend : ℕ → BrightResp) (k : ℕ) :
    (k < max_poll_attempts →
      (∀ i, i < k → runningShape (backend i)) →
      ((∀ x xs, (backend k).code = 200 → (backend k).body = .list (x :: xs) →
        wait_for_results backend =
          (.success (normalize_linkedin_data x), k + 1, List.replicate k 10)) ∧
      (∀ kvs, (backend k).code = 200 → (backend k).body = .dict kvs →
        kvs.any (fun kv => kv.fst = "id") = true →
        wait_for_results backend =
          (.success (normalize_linkedin_data (.dict kvs)), k + 1,
            List.replicate k 10)) ∧
      ((backend k).code ≠ 200 → (backend k).code ≠ 202 →
        (backend k).code ≠ 404 →
        wait_for_results backend = (.failure, k + 1, List.replicate k 10)))) ∧
    ((∀ i, runningShape (backend i)) →
      wait_for_results backend =
        (.timeout, max_poll_attempts, List.replicate max_poll_attempts 10)) := by
  constructor
  · intro hk hrun
    have hskip := wait_loop_skip backend k 0 max_poll_attempts []
      (by omega) (fun i h1 h2 => hrun i (by omega))
    simp only [List.nil_append] at hskip
    obtain ⟨m, hm⟩ : ∃ m, max_poll_attempts - k = m + 1 :=
      ⟨max_poll_attempts - k - 1, by unfold max_poll_attempts at hk ⊢; omega⟩
    refine ⟨?_, ?_, ?_⟩
    · intro x xs h200 hbody
      unfold wait_for_results
      rw [hskip, hm]
      simp [wait_for_results_loop, h200, hbody]
    · intro kvs h200 hbody hid
      unfold wait_for_results
      rw [hskip, hm]
      simp [wait_for_results_loop, h200, hbody, hid]
    · intro h200 h202 h404
      unfold wait_for_results
      rw [hskip, hm]
      simp [wait_for_results_loop, h200, h202, h404]
  · intro hrun
    have hskip := wait_loop_skip backend max_poll_attempts 0 max_poll_attempts
      [] (le_refl _) (fun i h1 h2 => hrun i)
    simp only [List.nil_append] at hskip
    unfold wait_for_results
    rw [hskip]
    simp [wait_for_results_loop]

/-- C4 witness: the poller theorem applied to three concrete backends. -/
theorem poller_wait_behaviour_witness :
    wait_for_results bRunThenOk =
      (.success (normalize_linkedin_data (.dict [("name", .str "X")])), 3,
        List.replicate 2 10) ∧
    wait_for_results bAlwaysRunning =
      (.timeout, max_poll_attempts, List.replicate max_poll_attempts 10) ∧
    wait_for_results bHardFail = (.failure, 3, List.replicate 2 10) := by
  refine ⟨?_, ?_, ?_⟩
  · exact (poller_wait_behaviour bRunThenOk 2).1 (by decide)
      (fun i hi => Or.inr (Or.inr (by simp [bRunThenOk, hi])))
      |>.1 (.dict [("name", .str "X")]) [] rfl rfl
  · exact (poller_wait_behaviour bAlwaysRunning 0).2
      (fun i => Or.inl ⟨rfl, [("status", .str "running")], rfl, by decide, by decide⟩)
  · exact ((poller_wait_behaviour bHardFail 2).1 (by decide)
      (fun i hi => Or.inr (Or.inl (by simp [bHardFail, hi])))).2.2
      (by decide) (by decide) (by decide)

/-! ## C5, C6 — orchestrator failure semantics -/

theorem commitProfile_commitProfile (db : List Profile) (p q : Profile)
    (h : p.id = q.id) :
    commitProfile (commitProfile db p) q = commitProfile db q := by
  induction db with
  | nil => simp [commitProfile]
  | cons a rest ih =>
      by_cases ha : a.id = p.id
      · simp [commitProfile, ha, h, ha.trans h]
      · have ha2 : ¬ a.id = q.id := fun e => ha (e.trans h.symm)
        simp [commitProfile, ha, ha2, ih]

/-- C6: a profile without an external reference fails immediately: the
run returns the missing-reference error ("linkedin_url" step), invokes
neither the scraper nor the assessment collaborator, writes the status
sequence processing → failed, appends exactly one audit row, and changes
nothing in the store except that profile's status. -/
theorem orchestrator_missing_reference (db : List Profile) (pid : String)
    (env : Env) (now : ℕ) (p : Profile)
    (hp : db.find? (fun q => q.id = pid) = Option.some p)
    (hurl : p.linkedin_profile.getD "" = "") :
    process_profile db pid env now =
      ⟨commitProfile db {p with processing_status := "failed"},
       [⟨"linkedin_url", "failed", "No LinkedIn profile URL available"⟩],
       .dict [("error", .str "No LinkedIn profile URL available"),
         ("profile_id", .str p.id), ("failed_step", .str "linkedin_url")],
       ["processing", "failed"], 0, 0⟩ := by
  unfold process_profile
  rw [hp]
  simp only [hurl, if_pos rfl, handle_processing_error, if_true]
  rw [commitProfile_commitProfile db {p with processing_status := "processing"}
    {p with processing_status := "failed"} rfl]

/-- C5: whenever any step fails (missing reference, scrape raising or
returning no data, assessment raising or returning an error-tagged or
malformed result), the store is left with the profile marked `failed` and
every other column exactly as before the run — no derived field (scraped
document, assessment payload, evidence, final score, suitability
score/reason) is persisted — and neither external step is invoked more
than once. -/
theorem orchestrator_all_or_nothing (db : List Profile) (pid : String)
    (env : Env) (now : ℕ) (p : Profile)
    (hp : db.find? (fun q => q.id = pid) = Option.some p)
    (hfail : runSucceedsB p env = false) :
    (process_profile db pid env now).db =
      commitProfile db {p with processing_status := "failed"} ∧
    (process_profile db pid env now).scrapeCalls ≤ 1 ∧
    (process_profile db pid env now).assessCalls ≤ 1 := by
  unfold process_profile
  rw [hp]
  dsimp only
  by_cases hurl : p.linkedin_profile.getD "" = ""
  · simp only [hurl, if_pos rfl, handle_processing_error, if_true]
    rw [commitProfile_commitProfile db {p with processing_status := "processing"}
      {p with processing_status := "failed"} rfl]
    exact ⟨rfl, by norm_num, by norm_num⟩
  · rw [if_neg hurl]
    have hbne : (p.linkedin_profile.getD "" != "") = true := by
      simp [bne, hurl]
    rw [runSucceedsB, hbne, Bool.true_and] at hfail
    rcases hs : env.scrape with m | v
    · simp only [scrape_step, hs, handle_processing_error]
      rw [commitProfile_commitProfile db {p with processing_status := "processing"}
        {p with processing_status := "failed"} rfl]
      exact ⟨rfl, by norm_num, by norm_num⟩
    · by_cases hv : v.truthy
      · have hsok : scrapeOkB env = true := by rw [scrapeOkB, hs]; exact hv
        rw [hsok, Bool.true_and] at hfail
        simp only [scrape_step, hs, hv, if_pos]
        rcases ha : env.assess with m2 | w
        · simp only [assess_step, ha, handle_processing_error]
          rw [commitProfile_commitProfile db
            {p with processing_status := "processing"}
            {p with processing_status := "failed"} rfl]
          exact ⟨rfl, by norm_num, by norm_num⟩
        · cases w with
          | dict kvs =>
              rw [assessOkB, ha] at hfail
              have hfail2 : ((PyVal.dict kvs).truthy &&
                  !((PyVal.lookup kvs "error").getD PyVal.none).truthy) = false :=
                hfail
              have hcond : ¬ ((PyVal.dict kvs).truthy = true ∧
                  ¬(((PyVal.lookup kvs "error").getD .none).truthy = true)) := by
                intro ⟨h1, h2⟩
                rw [h1, Bool.true_and] at hfail2
                rw [Bool.eq_false_iff.mpr h2] at hfail2
                simp at hfail2
              simp only [assess_step, ha, if_neg hcond, handle_processing_error]
              rw [commitProfile_commitProfile db
                {p with processing_status := "processing"}
                {p with processing_status := "failed"} rfl]
              exact ⟨rfl, by norm_num, by norm_num⟩
          | none =>
              simp only [assess_step, ha, handle_processing_error]
              rw [commitProfile_commitProfile db
                {p with processing_status := "processing"}
                {p with processing_status := "failed"} rfl]
              exact ⟨rfl, by norm_num, by norm_num⟩
          | bool b =>
              simp only [assess_step, ha, handle_processing_error]
              rw [commitProfile_commitProfile db
                {p with processing_status := "processing"}
                {p with processing_status := "failed"} rfl]
              exact ⟨rfl, by norm_num, by norm_num⟩
          | int n =>
              simp only [assess_step, ha, handle_processing_error]
              rw [commitProfile_commitProfile db
                {p with processing_status := "processing"}
                {p with processing_status := "failed"} rfl]
              exact ⟨rfl, by norm_num, by norm_num⟩
          | float q =>
              simp only [assess_step, ha, handle_processing_error]
              rw [commitProfile_commitProfile db
                {p with processing_status := "processing"}
                {p with processing_status := "failed"} rfl]
              exact ⟨rfl, by norm_num, by norm_num⟩
          | str s =>
              simp only [assess_step, ha, handle_processing_error]
              rw [commitProfile_commitProfile db
                {p with processing_status := "processing"}
                {p with processing_status := "failed"} rfl]
              exact ⟨rfl, by norm_num, by norm_num⟩
          | list xs =>
              simp only [assess_step, ha, handle_processing_error]
              rw [commitProfile_commitProfile db
                {p with processing_status := "processing"}
                {p with processing_status := "failed"} rfl]
              exact ⟨rfl, by norm_num, by norm_num⟩
      · have hvf : v.truthy = false := Bool.eq_false_iff.mpr hv
        simp only [scrape_step, hs, hvf, Bool.false_eq_true, if_false,
          handle_processing_error]
        rw [commitProfile_commitProfile db
          {p with processing_status := "processing"}
          {p with processing_status := "failed"} rfl]
        exact ⟨rfl, by norm_num, by norm_num⟩

/-- C6 witness: the missing-reference theorem applied to a concrete
store. -/
theorem orchestrator_missing_reference_witness :
    process_profile [pNoUrl] "p2" envAllOk 0 =
      ⟨commitProfile [pNoUrl] {pNoUrl with processing_status := "failed"},
       [⟨"linkedin_url", "failed", "No LinkedIn profile URL available"⟩],
       .dict [("error", .str "No LinkedIn profile URL available"),
         ("profile_id", .str pNoUrl.id), ("failed_step", .str "linkedin_url")],
       ["processing", "failed"], 0, 0⟩ :=
  orchestrator_missing_reference [pNoUrl] "p2" envAllOk 0 pNoUrl rfl rfl

/-- C5 witness: the all-or-nothing theorem applied to a concrete store
and an environment whose assessment call raises. -/
theorem orchestrator_all_or_nothing_witness :
    (process_profile [pOk] "p1" envAssessFail 0).db =
      commitProfile [pOk] {pOk with processing_status := "failed"} ∧
    (process_profile [pOk] "p1" envAssessFail 0).scrapeCalls ≤ 1 ∧
    (process_profile [pOk] "p1" envAssessFail 0).assessCalls ≤ 1 :=
  orchestrator_all_or_nothing [pOk] "p1" envAssessFail 0 pOk rfl rfl

/-! ## C3 — audit logging per step -/

/-- C3 (counterexample): on a fully successful run the persistence step
(`save_results`) is executed yet gets exactly one audit row, with status
`completed` and no preceding `started` row; and on a run whose scrape
fails, the `brightdata_scraping` step gets three audit rows (`started`,
then `failed` twice — once from the step helper and once more from the
error handler), exceeding the claimed two-row bound of one row per
status. -/
theorem audit_steps_counterexample :
    ((process_profile [pOk] "p1" envAllOk 0).log.filter
        (fun r => r.step = "save_results")).map LogRow.status = ["completed"] ∧
    ((process_profile [pOk] "p1" envScrapeFail 0).log.filter
        (fun r => r.step = "brightdata_scraping")).map LogRow.status =
      ["started", "failed", "failed"] := by
  constructor
  · rfl
  · rfl

/-- C3 (amended): on a run over a profile with an external reference, the
audit rows appended are exactly one of three shapes: the scraping and
assessment steps each log `started` then `completed`/`failed`, a step
that fails gets one additional `failed` row from the error handler (so a
failed step carries `started`, `failed`, `failed`), and the persistence
step logs a single `completed` row with no `started` row. -/
theorem audit_step_logging (db : List Profile) (pid : String) (env : Env)
    (now : ℕ) (p : Profile)
    (hp : db.find? (fun q => q.id = pid) = Option.some p)
    (hurl : p.linkedin_profile.getD "" ≠ "") :
    (process_profile db pid env now).log.map (fun r => (r.step, r.status)) ∈
      [[("brightdata_scraping", "started"), ("brightdata_scraping", "failed"),
        ("brightdata_scraping", "failed")],
       [("brightdata_scraping", "started"),
        ("brightdata_scraping", "completed"), ("gpt_assessment", "started"),
        ("gpt_assessment", "failed"), ("gpt_assessment", "failed")],
       [("brightdata_scraping", "started"),
        ("brightdata_scraping", "completed"), ("gpt_assessment", "started"),
        ("gpt_assessment", "completed"), ("save_results", "completed")]] := by
  unfold process_profile
  rw [hp]
  dsimp only
  rw [if_neg hurl]
  rcases hs : env.scrape with m | v
  · simp [scrape_step, hs, handle_processing_error]
  · by_cases hv : v.truthy
    · simp only [scrape_step, hs, hv, if_pos]
      rcases ha : env.assess with m2 | w
      · simp [assess_step, ha, handle_processing_error]
      · cases w with
        | dict kvs =>
            by_cases hcond : ((PyVal.dict kvs).truthy = true ∧
                ¬(((PyVal.lookup kvs "error").getD .none).truthy = true))
            · simp only [assess_step, ha, if_pos hcond]
              rcases hev : PyVal.lookup kvs "evidence" with _ | ev <;>
                rcases hov : PyVal.lookup kvs "overall_score" with _ | ov <;>
                simp [save_results, PyVal.get, hev, hov,
                  handle_processing_error]
            · simp only [assess_step, ha]
              rw [if_neg hcond]
              simp [handle_processing_error]
        | none => simp [assess_step, ha, handle_processing_error]
        | bool b => simp [assess_step, ha, handle_processing_error]
        | int n => simp [assess_step, ha, handle_processing_error]
        | float q => simp [assess_step, ha, handle_processing_error]
        | str s => simp [assess_step, ha, handle_processing_error]
        | list xs => simp [assess_step, ha, handle_processing_error]
    · have hvf : v.truthy = false := Bool.eq_false_iff.mpr hv
      simp [scrape_step, hs, hvf, handle_processing_error]

/-- C3 witness: the amended logging theorem applied to a concrete run. -/
theorem audit_step_logging_witness :
    (process_profile [pOk] "p1" envAllOk 0).log.map
        (fun r => (r.step, r.status)) ∈
      [[("brightdata_scraping", "started"), ("brightdata_scraping", "failed"),
        ("brightdata_scraping", "failed")],
       [("brightdata_scraping", "started"),
        ("brightdata_scraping", "completed"), ("gpt_assessment", "started"),
        ("gpt_assessment", "failed"), ("gpt_assessment", "failed")],
       [("brightdata_scraping", "started"),
        ("brightdata_scraping", "completed"), ("gpt_assessment", "started"),
        ("gpt_assessment", "completed"), ("save_results", "completed")]] :=
  audit_step_logging [pOk] "p1" envAllOk 0 pOk rfl (by decide)

/-! ## C10 — normalization / heuristic field-name mismatch -/

theorem lookup_eq_none_of_not_mem (kvs : List (String × PyVal)) (k : String)
    (h : k ∉ kvs.map Prod.fst) : PyVal.lookup kvs k = Option.none := by
  induction kvs with
  | nil => rfl
  | cons a rest ih =>
      simp only [List.map_cons, List.mem_cons] at h
      push_neg at h
      simp only [PyVal.lookup]
      rw [if_neg (fun e => h.1 e.symm)]
      exact ih h.2

theorem except_bind_ok {α β : Type} {x : Except String α}
    {f : α → Except String β} {b : β} (h : (x >>= f) = .ok b) :
    ∃ a, x = .ok a ∧ f a = .ok b := by
  cases x with
  | error e => simp [Bind.bind, Except.bind] at h
  | ok a => exact ⟨a, rfl, by simpa [Bind.bind, Except.bind] using h⟩

theorem judgeNetwork_of_no_keys (bkvs : List (String × PyVal))
    (h1 : PyVal.lookup bkvs "linkedin_connections" = Option.none)
    (h2 : PyVal.lookup bkvs "linkedin_followers" = Option.none) :
    judgeNetwork (.dict bkvs) = .ok (0, []) := by
  simp [judgeNetwork, PyVal.getN, PyVal.get, h1, h2, PyVal.pyOr,
    PyVal.truthy, PyVal.pyAdd, PyVal.toNum, PyVal.pyGeNum, bind, Except.bind]
  norm_num
  rfl

theorem normalizeRun_ok_shape (raw : PyVal) (v : PyVal)
    (h : normalizeRun raw = .ok v) :
    ∃ bkvs rest, v = .dict (("basic_info", .dict bkvs) :: rest) ∧
      bkvs.map Prod.fst = normalized_basic_info_keys := by
  rw [normalizeRun] at h
  obtain ⟨x1, hx1, h⟩ := except_bind_ok h
  obtain ⟨x2, hx2, h⟩ := except_bind_ok h
  obtain ⟨x3, hx3, h⟩ := except_bind_ok h
  obtain ⟨x4, hx4, h⟩ := except_bind_ok h
  obtain ⟨x5, hx5, h⟩ := except_bind_ok h
  obtain ⟨x6, hx6, h⟩ := except_bind_ok h
  obtain ⟨x7, hx7, h⟩ := except_bind_ok h
  obtain ⟨x8, hx8, h⟩ := except_bind_ok h
  obtain ⟨x9, hx9, h⟩ := except_bind_ok h
  obtain ⟨x10, hx10, h⟩ := except_bind_ok h
  obtain ⟨x11, hx11, h⟩ := except_bind_ok h
  obtain ⟨x12, hx12, h⟩ := except_bind_ok h
  obtain ⟨x13, hx13, h⟩ := except_bind_ok h
  obtain ⟨x14, hx14, h⟩ := except_bind_ok h
  obtain ⟨x15, hx15, h⟩ := except_bind_ok h
  obtain ⟨x16, hx16, h⟩ := except_bind_ok h
  simp only [pure, Except.pure] at h
  injection h with hv
  subst hv
  refine ⟨_, _, rfl, by simp [normalized_basic_info_keys]⟩

theorem judgeSenior_reasons (hl : String) :
    (judgeSenior hl).2.Sublist ["senior title"] := by
  unfold judgeSenior
  split <;> simp

theorem judgeCompany_reasons (cc : PyVal) (pr : ℕ × List String)
    (h : judgeCompany cc = .ok pr) : pr.2.Sublist ["tier-1 company"] := by
  simp only [judgeCompany, bind, Except.bind, pure, Except.pure] at h
  repeat'
    first
      | exact Except.noConfusion h
      | split at h
  all_goals (injection h with h1; subst h1; simp)

theorem judgeCommunity_reasons (acc : PyVal) (pr : ℕ × List String)
    (h : judgeCommunity acc = .ok pr) :
    pr.2.Sublist ["community roles/memberships"] := by
  simp only [judgeCommunity, bind, Except.bind, pure, Except.pure] at h
  repeat'
    first
      | exact Except.noConfusion h
      | split at h
  all_goals (injection h with h1; subst h1; simp)

theorem judgeVisibility_reasons (acc : PyVal) (pr : ℕ × List String)
    (h : judgeVisibility acc = .ok pr) :
    pr.2.Sublist ["awards/publications/projects"] := by
  simp only [judgeVisibility, bind, Except.bind, pure, Except.pure] at h
  repeat'
    first
      | exact Except.noConfusion h
      | split at h
  all_goals (injection h with h1; subst h1; simp)

theorem judgeRecs_reasons (basic : PyVal) (pr : ℕ × List String)
    (h : judgeRecs basic = .ok pr) :
    pr.2.Sublist ["≥5 recommendations"] := by
  simp only [judgeRecs, bind, Except.bind, pure, Except.pure] at h
  repeat'
    first
      | exact Except.noConfusion h
      | split at h
  all_goals (injection h with h1; subst h1; simp)

theorem judgeRun_reasons_sublist (ld : PyVal)
    (hnet : ∀ b, ((ld.pyOr (.dict [])).get "basic_info" (.dict [])) = .ok b →
      judgeNetwork b = .ok (0, []))
    (q : ℚ) (rs : List String) (h : judgeRun ld = .ok (q, rs)) :
    rs.Sublist judge_reason_texts := by
  rw [judgeRun] at h
  obtain ⟨basic, hbasic, h⟩ := except_bind_ok h
  obtain ⟨hv, hhv, h⟩ := except_bind_ok h
  obtain ⟨hl, hhl, h⟩ := except_bind_ok h
  obtain ⟨ccv, hccv, h⟩ := except_bind_ok h
  rcases hsen : judgeSenior hl with ⟨p1, r1⟩
  rw [hsen] at h
  obtain ⟨net, hnet5, h⟩ := except_bind_ok h
  obtain ⟨p2, r2⟩ := net
  obtain ⟨comp, hcomp, h⟩ := except_bind_ok h
  obtain ⟨p3, r3⟩ := comp
  obtain ⟨acc, hacc, h⟩ := except_bind_ok h
  obtain ⟨comm, hcomm, h⟩ := except_bind_ok h
  obtain ⟨p4, r4⟩ := comm
  obtain ⟨vis, hvis, h⟩ := except_bind_ok h
  obtain ⟨p5, r5⟩ := vis
  obtain ⟨recs, hrecs, h⟩ := except_bind_ok h
  obtain ⟨p6, r6⟩ := recs
  simp only [pure, Except.pure] at h
  injection h with hp
  injection hp with hq hrs
  subst hrs
  have hr2 : r2 = [] := by
    have h0 := hnet basic hbasic
    rw [hnet5] at h0
    injection h0 with h0p
    exact ((Prod.mk.injEq _ _ _ _).mp h0p.symm).2.symm
  subst hr2
  have s1 : r1.Sublist ["senior title"] := by
    have := judgeSenior_reasons hl
    rw [hsen] at this
    exact this
  have s3 := judgeCompany_reasons _ _ hcomp
  have s4 := judgeCommunity_reasons _ _ hcomm
  have s5 := judgeVisibility_reasons _ _ hvis
  have s6 := judgeRecs_reasons _ _ hrecs
  have : ((((r1 ++ []) ++ r3) ++ r4) ++ r5) ++ r6
      |>.Sublist (((((["senior title"] ++ ["tier-1 company"]) ++
        ["community roles/memberships"]) ++
        ["awards/publications/projects"]) ++ ["≥5 recommendations"])) := by
    refine List.Sublist.append (List.Sublist.append (List.Sublist.append
      (List.Sublist.append ?_ ?_) ?_) ?_) ?_
    · exact List.Sublist.trans (by simp) s1
    · exact s3
    · exact s4
    · exact s5
    · exact s6
  simpa [judge_reason_texts] using this

/-- C10: for every document produced by the scraper's normalization step
(either the normalized shape or the error-marker fallback), the
suitability heuristic's network-size category contributes exactly 0
points with no reason, and the network reason texts never appear in the
heuristic's reason string: normalization populates `connections_count` /
`followers_count` while the heuristic reads `linkedin_connections` /
`linkedin_followers`. -/
theorem normalized_doc_no_network_contribution (raw a : PyVal) :
    (∃ b, ((normalize_linkedin_data raw).pyOr (.dict [])).get "basic_info"
        (.dict []) = .ok b ∧ judgeNetwork b = .ok (0, [])) ∧
    ¬ List.IsInfix "network".data
      ((compute_judge_auto_suggestion (normalize_linkedin_data raw) a).2).data := by
  have hbasic : ∃ b, ((normalize_linkedin_data raw).pyOr (.dict [])).get
      "basic_info" (.dict []) = .ok b ∧ judgeNetwork b = .ok (0, []) := by
    unfold normalize_linkedin_data
    cases hn : normalizeRun raw with
    | ok v =>
        obtain ⟨bkvs, rest, hshape, hkeys⟩ := normalizeRun_ok_shape raw v hn
        subst hshape
        refine ⟨.dict bkvs, ?_, ?_⟩
        · simp [PyVal.pyOr, PyVal.truthy, PyVal.get, PyVal.lookup]
        · refine judgeNetwork_of_no_keys bkvs ?_ ?_
          · refine lookup_eq_none_of_not_mem bkvs _ ?_
            rw [hkeys]
            decide
          · refine lookup_eq_none_of_not_mem bkvs _ ?_
            rw [hkeys]
            decide
    | error e =>
        refine ⟨.dict [], ?_, ?_⟩
        · simp [PyVal.pyOr, PyVal.truthy, PyVal.get, PyVal.lookup]
        · exact judgeNetwork_of_no_keys [] rfl rfl
  refine ⟨hbasic, ?_⟩
  intro hinf
  unfold compute_judge_auto_suggestion at hinf
  cases hj : judgeRun (normalize_linkedin_data raw) with
  | error e =>
      rw [hj] at hinf
      have hk : 'k' ∈ "network".data := by decide
      have := hinf.subset hk
      simp at this
  | ok v =>
      obtain ⟨q, rs⟩ := v
      rw [hj] at hinf
      have hnetAll : ∀ b, ((normalize_linkedin_data raw).pyOr (.dict [])).get
          "basic_info" (.dict []) = .ok b → judgeNetwork b = .ok (0, []) := by
        intro b hb
        obtain ⟨b0, hb0, hn0⟩ := hbasic
        rw [hb0] at hb
        injection hb with e
        rw [← e]
        exact hn0
      have hsub := judgeRun_reasons_sublist _ hnetAll q rs hj
      have hmem : rs ∈ judge_reason_texts.sublists :=
        List.mem_sublists.mpr hsub
      have hknotin : ∀ l ∈ judge_reason_texts.sublists,
          'k' ∉ (String.intercalate ", " l).data := by decide
      have hk : 'k' ∈ "network".data := by decide
      exact (hknotin rs hmem) (hinf.subset hk)

/-- C10 witness: the mismatch theorem applied to a concrete raw payload. -/
theorem normalized_doc_no_network_contribution_witness :
    ¬ List.IsInfix "network".data
      ((compute_judge_auto_suggestion
        (normalize_linkedin_data (.dict [("name", .str "Ada")]))
        (.dict [])).2).data :=
  (normalized_doc_no_network_contribution (.dict [("name", .str "Ada")])
    (.dict [])).2

/-! ## C1 — global re-ranking -/

instance : IsTotal RankEntry rankLe :=
  ⟨fun a b => by
    rcases lt_trichotomy a.score b.score with h | h | h
    · exact Or.inr (Or.inl h)
    · rcases Nat.le_total a.idx b.idx with hle | hle
      · exact Or.inl (Or.inr ⟨h, hle⟩)
      · exact Or.inr (Or.inr ⟨h.symm, hle⟩)
    · exact Or.inl (Or.inl h)⟩

instance : IsTrans RankEntry rankLe :=
  ⟨fun a b c hab hbc => by
    rcases hab with h1 | ⟨h1, h1i⟩ <;> rcases hbc with h2 | ⟨h2, h2i⟩
    · exact Or.inl (lt_trans h2 h1)
    · exact Or.inl (h2 ▸ h1)
    · exact Or.inl (h1 ▸ h2)
    · exact Or.inr ⟨h1.trans h2, le_trans h1i h2i⟩⟩

theorem findIdxOf_some (i : ℕ) (S : List RankEntry) (n : ℕ)
    (h : findIdxOf i S = Option.some n) :
    ∃ e, S.get? n = Option.some e ∧ e.idx = i := by
  induction S generalizing n with
  | nil => exact Option.noConfusion h
  | cons e rest ih =>
      by_cases he : e.idx = i
      · simp only [findIdxOf, if_pos he] at h
        injection h with h1
        subst h1
        exact ⟨e, rfl, he⟩
      · simp only [findIdxOf, if_neg he] at h
        cases hr : findIdxOf i rest with
        | none => rw [hr] at h; exact Option.noConfusion h
        | some m =>
            rw [hr] at h
            injection h with h1
            obtain ⟨e2, hget, hidx⟩ := ih m hr
            refine ⟨e2, ?_, hidx⟩
            rw [← h1]
            simpa using hget

theorem findIdxOf_isSome_iff (i : ℕ) (S : List RankEntry) :
    (findIdxOf i S).isSome = true ↔ ∃ e ∈ S, e.idx = i := by
  induction S with
  | nil => simp [findIdxOf]
  | cons e rest ih =>
      by_cases he : e.idx = i
      · simp [findIdxOf, he]
      · simp [findIdxOf, he, ih]

theorem findIdxOf_eq_some_of_get (S : List RankEntry) (n : ℕ) (e : RankEntry)
    (hget : S.get? n = Option.some e)
    (hnd : (S.map RankEntry.idx).Nodup) :
    findIdxOf e.idx S = Option.some n := by
  induction S generalizing n with
  | nil => simp at hget
  | cons a rest ih =>
      cases n with
      | zero =>
          simp only [List.get?] at hget
          injection hget with h1
          subst h1
          simp [findIdxOf]
      | succ m =>
          simp only [List.get?] at hget
          have hmem : e ∈ rest := List.get?_mem hget
          have hne : ¬ a.idx = e.idx := by
            simp only [List.map_cons, List.nodup_cons] at hnd
            intro hcontra
            exact hnd.1 (hcontra ▸ List.mem_map_of_mem RankEntry.idx hmem)
          simp only [findIdxOf, if_neg (fun hcontra => hne hcontra)]
          rw [ih m hget (by simp only [List.map_cons, List.nodup_cons] at hnd; exact hnd.2)]
          rfl

theorem completedEntriesFrom_mem (l : List Profile) (n : ℕ) (e : RankEntry)
    (h : e ∈ completedEntriesFrom n l) :
    n ≤ e.idx ∧ ∃ p, l.get? (e.idx - n) = Option.some p ∧
      p.processing_status = "completed" ∧
      p.final_score = Option.some e.score := by
  induction l generalizing n with
  | nil => simp [completedEntriesFrom] at h
  | cons p rest ih =>
      cases hs : p.final_score with
      | none =>
          simp only [completedEntriesFrom, hs] at h
          obtain ⟨hle, p2, hget, hst, hsc⟩ := ih (n + 1) h
          refine ⟨by omega, p2, ?_, hst, hsc⟩
          have : e.idx - n = (e.idx - (n + 1)) + 1 := by omega
          rw [this]
          simpa using hget
      | some q =>
          by_cases hst : p.processing_status = "completed"
          · simp only [completedEntriesFrom, hs, if_pos hst] at h
            rcases List.mem_cons.mp h with he | he
            · subst he
              exact ⟨le_refl n, p, by simp, hst, hs⟩
            · obtain ⟨hle, p2, hget, hst2, hsc⟩ := ih (n + 1) he
              refine ⟨by omega, p2, ?_, hst2, hsc⟩
              have : e.idx - n = (e.idx - (n + 1)) + 1 := by omega
              rw [this]
              simpa using hget
          · simp only [completedEntriesFrom, hs, if_neg hst] at h
            obtain ⟨hle, p2, hget, hst2, hsc⟩ := ih (n + 1) h
            refine ⟨by omega, p2, ?_, hst2, hsc⟩
            have : e.idx - n = (e.idx - (n + 1)) + 1 := by omega
            rw [this]
            simpa using hget

theorem completedEntriesFrom_mem_of (l : List Profile) (n k : ℕ) (p : Profile)
    (s : ℚ) (hget : l.get? k = Option.some p)
    (hst : p.processing_status = "completed")
    (hsc : p.final_score = Option.some s) :
    (⟨n + k, s⟩ : RankEntry) ∈ completedEntriesFrom n l := by
  induction l generalizing n k with
  | nil => simp at hget
  | cons a rest ih =>
      cases k with
      | zero =>
          simp only [List.get?] at hget
          injection hget with h1
          subst h1
          simp only [completedEntriesFrom, hsc, if_pos hst]
          exact List.mem_cons_self _ _
      | succ m =>
          simp only [List.get?] at hget
          have hrec := ih (n + 1) m hget
          have harith : n + (m + 1) = (n + 1) + m := by omega
          rw [harith]
          cases ha : a.final_score with
          | none => simp only [completedEntriesFrom, ha]; exact hrec
          | some q =>
              by_cases hast : a.processing_status = "completed"
              · simp only [completedEntriesFrom, ha, if_pos hast]
                exact List.mem_cons_of_mem _ hrec
              · simp only [completedEntriesFrom, ha, if_neg hast]
                exact hrec

theorem completedEntriesFrom_idx_lt (l : List Profile) (n : ℕ) :
    (completedEntriesFrom n l).Pairwise (fun a b => a.idx < b.idx) := by
  induction l generalizing n with
  | nil => simp [completedEntriesFrom]
  | cons p rest ih =>
      cases hs : p.final_score with
      | none => simp only [completedEntriesFrom, hs]; exact ih (n + 1)
      | some q =>
          by_cases hst : p.processing_status = "completed"
          · simp only [completedEntriesFrom, hs, if_pos hst]
            refine List.Pairwise.cons ?_ (ih (n + 1))
            intro e he
            have := (completedEntriesFrom_mem rest (n + 1) e he).1
            simpa using by omega
          · simp only [completedEntriesFrom, hs, if_neg hst]
            exact ih (n + 1)

theorem completedEntries_idx_nodup (db : List Profile) :
    ((completedEntries db).map RankEntry.idx).Nodup := by
  have hp := completedEntriesFrom_idx_lt db 0
  have : (completedEntries db).Pairwise
      (fun a b => RankEntry.idx a ≠ RankEntry.idx b) :=
    hp.imp (fun h => Nat.ne_of_lt h)
  exact (List.pairwise_map).mpr this

theorem insertionSort_rankLe_dbOrder (db : List Profile) :
    dbOrder db (List.insertionSort rankLe (completedEntries db)) := by
  refine ⟨List.perm_insertionSort rankLe _, ?_⟩
  have hs := List.sorted_insertionSort rankLe (completedEntries db)
  refine hs.imp ?_
  intro a b h
  rcases h with h | ⟨h, -⟩
  · exact le_of_lt h
  · exact le_of_eq h.symm

theorem dbOrder_idx_nodup (db : List Profile) (sorted : List RankEntry)
    (hord : dbOrder db sorted) : (sorted.map RankEntry.idx).Nodup :=
  ((hord.1.map RankEntry.idx).nodup_iff).mpr (completedEntries_idx_nodup db)

theorem sorted_perm_eq_of_distinct :
    ∀ l1 l2 : List RankEntry, l1.Perm l2 → l1.Sorted scoreDesc →
      l2.Sorted scoreDesc → (l1.map RankEntry.score).Nodup → l1 = l2 := by
  intro l1
  induction l1 with
  | nil =>
      intro l2 hperm _ _ _
      exact (hperm.symm.eq_nil).symm
  | cons a t1 ih =>
      intro l2 hperm h1 h2 hd
      cases l2 with
      | nil => exact absurd hperm.eq_nil (by simp)
      | cons b t2 =>
          have hab : a = b := by
            by_contra hne
            have hamem : a ∈ b :: t2 := hperm.subset (List.mem_cons_self a t1)
            have hbmem : b ∈ a :: t1 :=
              hperm.symm.subset (List.mem_cons_self b t2)
            have ha2 : a ∈ t2 := by
              rcases List.mem_cons.mp hamem with h | h
              · exact absurd h hne
              · exact h
            have hb1 : b ∈ t1 := by
              rcases List.mem_cons.mp hbmem with h | h
              · exact absurd h.symm hne
              · exact h
            have h1' : scoreDesc a b := List.rel_of_sorted_cons h1 b hb1
            have h2' : scoreDesc b a := List.rel_of_sorted_cons h2 a ha2
            have heq : b.score = a.score := le_antisymm h1' h2'
            simp only [List.map_cons, List.nodup_cons] at hd
            exact hd.1 (heq ▸ List.mem_map_of_mem RankEntry.score hb1)
          subst hab
          have hpt : t1.Perm t2 := hperm.cons_inv
          have hrec := ih t2 hpt h1.of_cons h2.of_cons
            (by simp only [List.map_cons, List.nodup_cons] at hd; exact hd.2)
          rw [hrec]

theorem applyRanksFrom_get? (S : List RankEntry) (l : List Profile)
    (n k : ℕ) :
    (applyRanksFrom S n l).get? k = (l.get? k).map (fun p =>
      match findIdxOf (n + k) S with
      | Option.some pos => {p with ranking := Option.some (pos + 1)}
      | Option.none => p) := by
  induction l generalizing n k with
  | nil => simp [applyRanksFrom]
  | cons p rest ih =>
      cases k with
      | zero => simp [applyRanksFrom]
      | succ m =>
          simp only [applyRanksFrom, List.get?]
          rw [ih (n + 1) m]
          have harith : n + 1 + m = n + (m + 1) := by omega
          rw [harith]

theorem completedEntriesFrom_applyRanksFrom (S : List RankEntry)
    (l : List Profile) (n m : ℕ) :
    completedEntriesFrom n (applyRanksFrom S m l) =
      completedEntriesFrom n l := by
  induction l generalizing n m with
  | nil => rfl
  | cons p rest ih =>
      simp only [applyRanksFrom]
      cases hf : findIdxOf m S with
      | some pos =>
          cases hs : p.final_score with
          | none =>
              simp only [completedEntriesFrom, hs]
              exact ih (n + 1) (m + 1)
          | some q =>
              by_cases hst : p.processing_status = "completed"
              · simp only [completedEntriesFrom, hs, if_pos hst,
                  ih (n + 1) (m + 1)]
              · simp only [completedEntriesFrom, hs, if_neg hst]
                exact ih (n + 1) (m + 1)
      | none =>
          cases hs : p.final_score with
          | none =>
              simp only [completedEntriesFrom, hs]
              exact ih (n + 1) (m + 1)
          | some q =>
              by_cases hst : p.processing_status = "completed"
              · simp only [completedEntriesFrom, hs, if_pos hst,
                  ih (n + 1) (m + 1)]
              · simp only [completedEntriesFrom, hs, if_neg hst]
                exact ih (n + 1) (m + 1)

theorem applyRanksFrom_applyRanksFrom (S : List RankEntry)
    (l : List Profile) (n : ℕ) :
    applyRanksFrom S n (applyRanksFrom S n l) = applyRanksFrom S n l := by
  induction l generalizing n with
  | nil => rfl
  | cons p rest ih =>
      simp only [applyRanksFrom]
      cases hf : findIdxOf n S with
      | some pos => simp [hf, ih]
      | none => simp [hf, ih]

/-- C1 (counterexample): the query of `_update_rankings` has no secondary
sort key, so the database may return equal-score rows in any order.  Both
`exStableOrder` and `exBadOrder` are admissible orders for `exRankDb`
(whose positions 0 and 3 are tied at score 5), yet under `exBadOrder` the
later store position 3 receives rank 2 and the earlier position 0
receives rank 3 — refuting "ties broken by stable input order
(first-completed wins the higher rank)" — and the two admissible runs
write different rank assignments, refuting guaranteed idempotence across
re-runs in the presence of ties. -/
theorem update_rankings_tie_counterexample :
    dbOrder exRankDb exStableOrder ∧ dbOrder exRankDb exBadOrder ∧
    pRankA.final_score = pRankD.final_score ∧
    assignedRank_with exBadOrder 0 = Option.some 3 ∧
    assignedRank_with exBadOrder 3 = Option.some 2 ∧
    (update_rankings_with exRankDb exStableOrder).map Profile.ranking ≠
      (update_rankings_with exRankDb exBadOrder).map Profile.ranking := by
  refine ⟨⟨?_, ?_⟩, ⟨?_, ?_⟩, rfl, ?_, ?_, ?_⟩
  · decide
  · decide
  · decide
  · decide
  · decide
  · decide
  · decide

/-- C1 (amended): for every order the database may return for the
completed-profile query (any score-descending permutation of the
completed, scored entries — `dbOrder`), one `_update_rankings` run
assigns ranks exactly to the store positions holding a completed profile
with a non-null final score, as a dense `1..N` sequence (`N` = number of
completed, scored profiles) with no rank shared, ordered highest score
first; the update writes exactly those ranks and touches no other
profile.  Because the query has no tie-break, the relative order of
equal scores is unspecified: tie order among equal scores — and hence
bit-identical re-runs — is only guaranteed when no two completed
profiles share a score (any two admissible orders then coincide), or
when the database returns the same order again (a second run with the
same order is a no-op, the same order remaining admissible). -/
theorem update_rankings_spec (db : List Profile) (sorted : List RankEntry)
    (hord : dbOrder db sorted) :
    (∀ i, (assignedRank_with sorted i).isSome = true ↔
      (∃ p s, db.get? i = Option.some p ∧
        p.processing_status = "completed" ∧
        p.final_score = Option.some s)) ∧
    (∀ r, (∃ i, assignedRank_with sorted i = Option.some r) ↔
      (1 ≤ r ∧ r ≤ (completedEntries db).length)) ∧
    (∀ i j r, assignedRank_with sorted i = Option.some r →
      assignedRank_with sorted j = Option.some r → i = j) ∧
    (∀ i j pi pj si sj ri rj, db.get? i = Option.some pi →
      db.get? j = Option.some pj → pi.final_score = Option.some si →
      pj.final_score = Option.some sj →
      assignedRank_with sorted i = Option.some ri →
      assignedRank_with sorted j = Option.some rj →
      sj < si → ri < rj) ∧
    (∀ i, (update_rankings_with db sorted).get? i = (db.get? i).map (fun p =>
      match assignedRank_with sorted i with
      | Option.some r => {p with ranking := Option.some r}
      | Option.none => p)) ∧
    (∀ sorted2, dbOrder db sorted2 →
      ((completedEntries db).map RankEntry.score).Nodup →
      update_rankings_with db sorted = update_rankings_with db sorted2) ∧
    (dbOrder (update_rankings_with db sorted) sorted ∧
      update_rankings_with (update_rankings_with db sorted) sorted =
        update_rankings_with db sorted) := by
  obtain ⟨hperm, hsorted⟩ := hord
  have hnd : (sorted.map RankEntry.idx).Nodup :=
    dbOrder_idx_nodup db sorted ⟨hperm, hsorted⟩
  have hscore : ∀ n e p s, sorted.get? n = Option.some e →
      db.get? e.idx = Option.some p → p.final_score = Option.some s →
      e.score = s := by
    intro n e p s hget hgp hps
    have hmem : e ∈ completedEntries db :=
      hperm.mem_iff.mp (List.get?_mem hget)
    obtain ⟨-, p2, hget2, -, hsc2⟩ := completedEntriesFrom_mem db 0 e hmem
    rw [Nat.sub_zero] at hget2
    rw [hgp] at hget2
    injection hget2 with h2
    subst h2
    rw [hps] at hsc2
    injection hsc2 with h3
    exact h3.symm
  refine ⟨?_, ?_, ?_, ?_, ?_, ?_, ?_⟩
  · intro i
    constructor
    · intro h
      rw [assignedRank_with] at h
      obtain ⟨n, hf⟩ : ∃ n, findIdxOf i sorted = Option.some n := by
        cases hfind : findIdxOf i sorted with
        | none => rw [hfind] at h; simp at h
        | some n => exact ⟨n, rfl⟩
      obtain ⟨e, hget, hidx⟩ := findIdxOf_some i sorted n hf
      have hmem : e ∈ completedEntries db :=
        hperm.mem_iff.mp (List.get?_mem hget)
      obtain ⟨-, p, hget2, hst, hsc⟩ := completedEntriesFrom_mem db 0 e hmem
      rw [Nat.sub_zero, hidx] at hget2
      exact ⟨p, e.score, hget2, hst, hsc⟩
    · rintro ⟨p, s, hget, hst, hsc⟩
      have hmem : (⟨i, s⟩ : RankEntry) ∈ completedEntries db := by
        have := completedEntriesFrom_mem_of db 0 i p s hget hst hsc
        simpa using this
      have hmemS : (⟨i, s⟩ : RankEntry) ∈ sorted := hperm.mem_iff.mpr hmem
      obtain ⟨n, hf⟩ := Option.isSome_iff_exists.mp
        ((findIdxOf_isSome_iff i sorted).mpr ⟨⟨i, s⟩, hmemS, rfl⟩)
      rw [assignedRank_with, hf]
      rfl
  · intro r
    constructor
    · rintro ⟨i, h⟩
      obtain ⟨n, hf, hr⟩ := Option.map_eq_some'.mp h
      obtain ⟨e, hget, -⟩ := findIdxOf_some i sorted n hf
      have hlt : n < sorted.length := (List.get?_eq_some.mp hget).1
      have hlen : sorted.length = (completedEntries db).length :=
        hperm.length_eq
      omega
    · rintro ⟨h1, h2⟩
      have hlen : sorted.length = (completedEntries db).length :=
        hperm.length_eq
      have hlt : r - 1 < sorted.length := by omega
      set e := sorted.get ⟨r - 1, hlt⟩ with he
      have hget : sorted.get? (r - 1) = Option.some e := List.get?_eq_get hlt
      have hf : findIdxOf e.idx sorted = Option.some (r - 1) :=
        findIdxOf_eq_some_of_get sorted (r - 1) e hget hnd
      refine ⟨e.idx, ?_⟩
      rw [assignedRank_with, hf]
      simp only [Option.map_some']
      congr 1
      omega
  · intro i j r hi hj
    obtain ⟨n, hfn, hrn⟩ := Option.map_eq_some'.mp hi
    obtain ⟨m, hfm, hrm⟩ := Option.map_eq_some'.mp hj
    have hnm : n = m := by omega
    subst hnm
    obtain ⟨ei, hgeti, hidxi⟩ := findIdxOf_some i sorted n hfn
    obtain ⟨ej, hgetj, hidxj⟩ := findIdxOf_some j sorted n hfm
    rw [hgeti] at hgetj
    injection hgetj with he
    rw [← hidxi, ← hidxj, he]
  · intro i j pi pj si sj ri rj hgi hgj hsi hsj hri hrj hlt
    obtain ⟨ni, hfi, hri1⟩ := Option.map_eq_some'.mp hri
    obtain ⟨nj, hfj, hrj1⟩ := Option.map_eq_some'.mp hrj
    obtain ⟨ei, hgeti, hidxi⟩ := findIdxOf_some i sorted ni hfi
    obtain ⟨ej, hgetj, hidxj⟩ := findIdxOf_some j sorted nj hfj
    have hsei : ei.score = si := by
      apply hscore ni ei pi si hgeti
      · rw [hidxi]; exact hgi
      · exact hsi
    have hsej : ej.score = sj := by
      apply hscore nj ej pj sj hgetj
      · rw [hidxj]; exact hgj
      · exact hsj
    have hlti : ni < sorted.length := (List.get?_eq_some.mp hgeti).1
    have hltj : nj < sorted.length := (List.get?_eq_some.mp hgetj).1
    by_contra hcon
    push_neg at hcon
    rcases Nat.lt_or_ge nj ni with hcase | hcase
    · have hrel : scoreDesc ej ei := by
        have := hsorted.rel_get_of_lt
          (a := ⟨nj, hltj⟩) (b := ⟨ni, hlti⟩) (by exact hcase)
        rw [(List.get?_eq_some.mp hgeti).2,
          (List.get?_eq_some.mp hgetj).2] at this
        exact this
      rw [scoreDesc, hsei, hsej] at hrel
      exact absurd hlt (not_lt_of_le hrel)
    · have hnn : ni = nj := by omega
      rw [hnn, hgetj] at hgeti
      injection hgeti with he
      rw [← he, hsej] at hsei
      exact absurd hsei (ne_of_lt hlt)
  · intro i
    rw [update_rankings_with, applyRanksFrom_get?]
    cases hf : findIdxOf i sorted with
    | some pos => simp [assignedRank_with, hf, Nat.zero_add]
    | none => simp [assignedRank_with, hf, Nat.zero_add]
  · intro sorted2 hord2 hscnd
    have heq : sorted = sorted2 :=
      sorted_perm_eq_of_distinct sorted sorted2
        (hperm.trans hord2.1.symm) hsorted hord2.2
        (((hperm.map RankEntry.score).nodup_iff).mpr hscnd)
    rw [heq]
  · constructor
    · refine ⟨?_, hsorted⟩
      rw [update_rankings_with,
        show completedEntries (applyRanksFrom sorted 0 db) =
          completedEntries db
        from completedEntriesFrom_applyRanksFrom sorted db 0 0]
      exact hperm
    · exact applyRanksFrom_applyRanksFrom sorted db 0

/-- C1 witness: the amended theorem applied to a concrete store and a
concrete admissible order — a strictly higher score gets the better
rank, and a second run with the same order is a no-op. -/
theorem update_rankings_spec_witness :
    (1 : ℕ) < 2 ∧
    update_rankings_with (update_rankings_with exRankDb exStableOrder)
        exStableOrder = update_rankings_with exRankDb exStableOrder :=
  ⟨(update_rankings_spec exRankDb exStableOrder ⟨by decide, by decide⟩
      ).2.2.2.1 1 0 pRankB pRankA 7 5 1 2 rfl rfl rfl rfl rfl rfl
      (by decide),
   (update_rankings_spec exRankDb exStableOrder ⟨by decide, by decide⟩
      ).2.2.2.2.2.2.2⟩
